import Mathlib

/-
Verification of the ALE-Bench session/judge engine.

This file gives a shallow embedding, in Lean 4, of the core of the
ALE-Bench benchmarking engine:

* the profile parser, batch judge, compile step and case runner of
  `src/ale_bench/tool_wrappers/case_runner.py` (Docker path, BATCH
  problems), with the I/O-dependent pieces (container exit codes,
  captured stderr, file contents, the JSON/pydantic decoding of the
  profile record) supplied as explicit inputs or oracle functions;
* the session state machine of `src/ale_bench/session.py` (resource
  budget guards, submission interval, session lifetime, action log),
  with wall-clock instants passed explicitly;
* the standings rank computation, which is not part of the provided
  sources and is therefore modelled from the specification and
  validated against the expectations recorded in `tests/test_data.py`.

Real numbers produced by Python floats (times, limits) are modelled as
rationals; machine integers as `Int`/`Nat`.
-/

namespace AleBench

/-- Judge verdicts, mirroring `JudgeResult` used throughout
`case_runner.py`. -/
inductive JudgeResult where
  | accepted
  | wrongAnswer
  | runtimeError
  | timeLimitExceeded
  | memoryLimitExceeded
  | compilationError
  | internalError
deriving DecidableEq

/-- Per-case record, mirroring the `CaseResult` constructions in
`case_runner.py`.  The visualization image is opaque, kept as
`Option Unit`. -/
structure CaseResult where
  input_str : Option String
  output_str : Option String
  error_str : Option String
  judge_result : JudgeResult
  message : String
  absolute_score : Int
  local_visualization : Option Unit := none
  execution_time : Rat
  memory_usage : Int
deriving DecidableEq

/-- Modelled from the spec: `REJECTED_ABSOLUTE_SCORE` lives in
`ale_bench/constants.py`, which is not among the provided sources; the
spec only says it is a reserved sentinel value signalling "no score to
report".  Its concrete value is irrelevant to every claim (all compare
against this constant symbolically). -/
def REJECTED_ABSOLUTE_SCORE : Int := -1

/-- Modelled from the spec: `COMPILE_TIMEOUT` is in the missing
`ale_bench/constants.py`; the spec says "a fixed wall-clock cap,
typically 60 s".  Only its appearance in a message text depends on it. -/
def COMPILE_TIMEOUT : Nat := 60

/-- Python `str.isspace` characters relevant to `str.strip()` (ASCII
whitespace; the engine never meets non-ASCII whitespace here). -/
def pyIsSpace (c : Char) : Bool :=
  c == ' ' || c == '\t' || c == '\n' || c == '\r' || c.toNat == 11 || c.toNat == 12

/-- Python `str.strip()`. -/
def pyStrip (s : String) : String :=
  String.mk (((s.toList.dropWhile pyIsSpace).reverse.dropWhile pyIsSpace).reverse)

/-- Core of Python `str.splitlines()` on the character list, with the
line terminators `\r\n`, `\n`, `\r`.  A trailing terminator does not
produce a final empty line. -/
def pySplitLinesCore : List Char → List Char → List String
  | [], acc => [String.mk acc.reverse]
  | '\r' :: '\n' :: rest, acc =>
      if rest.isEmpty then [String.mk acc.reverse]
      else String.mk acc.reverse :: pySplitLinesCore rest []
  | '\n' :: rest, acc =>
      if rest.isEmpty then [String.mk acc.reverse]
      else String.mk acc.reverse :: pySplitLinesCore rest []
  | '\r' :: rest, acc =>
      if rest.isEmpty then [String.mk acc.reverse]
      else String.mk acc.reverse :: pySplitLinesCore rest []
  | c :: rest, acc => pySplitLinesCore rest (c :: acc)

/-- Python `str.splitlines()`. -/
def pySplitLines (s : String) : List String :=
  if s.toList.isEmpty then [] else pySplitLinesCore s.toList []

/-- Tests whether the first list is a prefix of the second. -/
def charsBegins : List Char → List Char → Bool
  | [], _ => true
  | _ :: _, [] => false
  | a :: as, b :: bs => a == b && charsBegins as bs

/-- Python `s.startswith(pre)`. -/
def pyStartsWith (s pre : String) : Bool :=
  charsBegins pre.toList s.toList

/-- Occurrence test for `sub` inside `l`. -/
def charsContains : List Char → List Char → Bool
  | [], sub => sub.isEmpty
  | c :: rest, sub => charsBegins sub (c :: rest) || charsContains rest sub

/-- Python `sub in s`. -/
def pyContains (s sub : String) : Bool :=
  charsContains s.toList sub.toList

/-- Characters after the first occurrence of `sub`, if any. -/
def charsDropThrough : List Char → List Char → Option (List Char)
  | [], _ => none
  | c :: rest, sub =>
      if charsBegins sub (c :: rest) then some (rest.drop (sub.length - 1))
      else charsDropThrough rest sub

/-- Characters up to (excluding) the next occurrence of `sub`. -/
def charsUpTo : List Char → List Char → List Char
  | [], _ => []
  | c :: rest, sub =>
      if charsBegins sub (c :: rest) then [] else c :: charsUpTo rest sub

/-- Python `s.split(sub)[1]`: the chunk after the first occurrence of
`sub`, up to the next occurrence. -/
def pyAfterFirst (s sub : String) : String :=
  match charsDropThrough s.toList sub.toList with
  | none => ""
  | some r => String.mk (charsUpTo r sub.toList)

/-- Python `s.split("\n", 1)[1]`: the remainder after the first newline;
`none` models the `IndexError` raised when there is no newline. -/
def pyDropFirstLineCore : List Char → Option (List Char)
  | [] => none
  | '\n' :: rest => some rest
  | _ :: rest => pyDropFirstLineCore rest

/-- String version of `pyDropFirstLineCore`. -/
def pyDropFirstLine (s : String) : Option String :=
  (pyDropFirstLineCore s.toList).map String.mk

/-- Numeric value of a digit run. -/
def digitsToNat (l : List Char) : Nat :=
  l.foldl (fun a c => a * 10 + (c.toNat - 48)) 0

/-- Python `re.match(r"Score = (\d+)", line)`: anchored at the start of
the line, captures the maximal digit run after `"Score = "`. -/
def scoreLineMatch (line : String) : Option Nat :=
  if pyStartsWith line "Score = " then
    let ds := (line.toList.drop 8).takeWhile Char.isDigit
    if ds.isEmpty then none else some (digitsToNat ds)
  else none

/-- Structured profile record, mirroring the fields of `Profiles`
(`ale_bench/result.py`) that `parse_profiles` reads. -/
structure Profiles where
  exit_status : Int
  elapsed_time_seconds : Rat
  user_cpu_seconds : Rat
  system_cpu_seconds : Rat
  max_resident_set_size_kbytes : Int
deriving DecidableEq

/-- Outcome of `json.loads` followed by `Profiles(**dict)` on the
trimmed profile text: a JSON decode error, a pydantic validation error
(missing/invalid fields), or a structured record.  The decoding itself
is I/O-free but string-heavy, so it enters the embedding as an oracle
`String → ProfilesDecode`. -/
inductive ProfilesDecode where
  | jsonError
  | invalidFields
  | ok (p : Profiles)

/-- Prefix handling of `parse_profiles` (rules 2 and 3): detect the
two informational first lines, drop them, and report the TLE flag.
`none` models the `IndexError` Python would raise when the prefix line
is present but not terminated by a newline. -/
def profilesStep (content : String) : Option (String × Bool) :=
  if pyStartsWith content "Command terminated by signal 9" then
    (pyDropFirstLine content).map (fun r => (r, true))
  else if pyStartsWith content "Command exited with non-zero status" then
    (pyDropFirstLine content).map (fun r => (r, false))
  else some (content, false)

/-- Builds the ubiquitous rejected `CaseResult` (score =
`REJECTED_ABSOLUTE_SCORE`, no visualization), shared by every
non-ACCEPTED construction in `case_runner.py`. -/
def rejCase (input_str output_str error_str : Option String)
    (jr : JudgeResult) (msg : String) (t : Rat) (mem : Int) : CaseResult :=
  ⟨input_str, output_str, error_str, jr, msg, REJECTED_ABSOLUTE_SCORE, none, t, mem⟩

/-- Embedding of `parse_profiles` (`case_runner.py:652-755`).  Returns
`.error` for a Python-level exception (failed assert or `IndexError`),
otherwise either a verdict `CaseResult` or the pair
`(execution_time, memory_usage)`. -/
def parse_profiles (decode : String → ProfilesDecode) (time_limit : Rat)
    (memory_limit : Int) (profiles_content : String)
    (execution_time_host : Rat) (input_str output_str error_str : Option String) :
    Except String (CaseResult ⊕ Rat × Int) :=
  if execution_time_host < 0 then .error "execution_time_host must be non-negative"
  else if profiles_content = "" then
    if execution_time_host > time_limit then
      .ok (.inl (rejCase input_str output_str error_str .timeLimitExceeded
        "Time limit exceeded." (min execution_time_host (time_limit + 1/10)) 0))
    else
      .ok (.inl (rejCase input_str output_str error_str .runtimeError
        "Runtime error." execution_time_host 0))
  else
    match profilesStep profiles_content with
    | none => .error "list index out of range"
    | some (rest, is_tle) =>
      match decode (pyStrip rest) with
      | .jsonError =>
        .ok (.inl (rejCase input_str output_str error_str .wrongAnswer
          "Wrong answer." (min execution_time_host (time_limit + 1/10)) 0))
      | .invalidFields =>
        .ok (.inl (rejCase input_str output_str error_str .internalError
          "Internal Error: Invalid profiles format."
          (min execution_time_host (time_limit + 1/10)) 0))
      | .ok p =>
        let execution_time :=
          max p.elapsed_time_seconds (p.user_cpu_seconds + p.system_cpu_seconds)
        let memory_usage := p.max_resident_set_size_kbytes * 1024
        if p.exit_status ≠ 0 then
          .ok (.inl (rejCase input_str output_str error_str .runtimeError
            "Runtime error." (min execution_time (time_limit + 1/10)) memory_usage))
        else if execution_time > time_limit ∨ is_tle then
          .ok (.inl (rejCase input_str output_str error_str .timeLimitExceeded
            "Time limit exceeded." (min execution_time (time_limit + 1/10)) memory_usage))
        else if memory_usage > memory_limit then
          .ok (.inl (rejCase input_str output_str error_str .memoryLimitExceeded
            "Memory limit exceeded." execution_time memory_usage))
        else .ok (.inr (execution_time, memory_usage))

/-- Embedding of the verdict logic of `run_batch_judge_container`
(`case_runner.py:465-549`): the judge container has exited with
`judge_exit` and stderr `judge_stderr_raw`; returns either a verdict
`CaseResult` or the extracted integer score. -/
def run_batch_judge_container (judge_exit : Int) (judge_stderr_raw : String)
    (execution_time_host : Rat)
    (input_str output_str error_str : Option String) : CaseResult ⊕ Nat :=
  let stderr := pyStrip judge_stderr_raw
  if judge_exit ≠ 0 then
    .inl (rejCase input_str output_str error_str .wrongAnswer
      ("Wrong answer.\nStandard error:\n" ++ stderr) execution_time_host 0)
  else if pyContains stderr "wrong answer: " then
    .inl (rejCase input_str output_str error_str .wrongAnswer
      ("Wrong answer.\n" ++ pyAfterFirst stderr "wrong answer: ") execution_time_host 0)
  else if pyStrip stderr = "" then
    .inl (rejCase input_str output_str error_str .wrongAnswer
      "Wrong answer.\nStandard error is empty (no score found)" execution_time_host 0)
  else
    match scoreLineMatch ((pySplitLines stderr).getLastD "") with
    | none =>
      .inl (rejCase input_str output_str error_str .wrongAnswer
        ("Wrong answer.\nStandard error:\n" ++ stderr) execution_time_host 0)
    | some score => .inr score

/-- Languages, as far as the case runner distinguishes them (`PYTHON`
is the dynamic interpreter; all compile conditions compare against it). -/
inductive CodeLanguage where
  | python
  | rust
  | cpp17
  | cpp20
  | cpp23
deriving DecidableEq

/-- What the compile container did: `timeout`/`exn` are a
`container.wait` timeout and a generic exception; `finished` carries
exit code, stderr and the size of the object artefact read afterwards
(also read after a timeout when the language is the interpreter). -/
structure CompileFinish where
  exit_code : Int
  stderr_raw : String
  object_size : Nat

/-- Outcome of the compile container. -/
inductive CompileOutcome where
  | timeout (f : CompileFinish)
  | exn
  | finished (f : CompileFinish)

/-- Post-wait failure conditions of `run_compile_container`
(`case_runner.py:386-404`). -/
def compileFinishCheck (lang : CodeLanguage) (f : CompileFinish) : Option CaseResult :=
  let stderr := pyStrip f.stderr_raw
  if f.exit_code ≠ 0 ∨ (lang ≠ .python ∧ f.object_size = 0) ∨
      (lang = .python ∧ pyContains stderr "SyntaxError") then
    some (rejCase none none none .compilationError
      ("Failed to compile the code.\nStandard error:\n" ++ stderr) 0 0)
  else none

/-- Embedding of `run_compile_container` (`case_runner.py:334-404`):
`some` is a compilation failure, `none` means proceed. -/
def run_compile_container (lang : CodeLanguage) (outcome : CompileOutcome) :
    Option CaseResult :=
  match outcome with
  | .exn => some (rejCase none none none .compilationError "Failed to compile the code." 0 0)
  | .timeout f =>
      if lang ≠ CodeLanguage.python then
        some (rejCase none none none .compilationError "Compilation timed out (60s)." 0 0)
      else compileFinishCheck lang f
  | .finished f => compileFinishCheck lang f

/-- Embedding of `run_batch_run_container` (`case_runner.py:407-462`):
either an early TLE/RE verdict, or `(execution_time_host, stderr)` to
continue with. -/
def run_batch_run_container (time_limit : Rat) (run_exit : Int)
    (execution_time_host : Rat) (run_stderr_raw : String)
    (input_str : Option String) : CaseResult ⊕ Rat × String :=
  let stderr := pyStrip run_stderr_raw
  if run_exit ≠ 0 then
    if execution_time_host > time_limit then
      .inl (rejCase input_str none (if input_str.isSome then some stderr else none)
        .timeLimitExceeded "Time limit exceeded."
        (min execution_time_host (time_limit + 1/10)) 0)
    else
      .inl (rejCase input_str none (if input_str.isSome then some stderr else none)
        .runtimeError "Runtime error." execution_time_host 0)
  else .inr (execution_time_host, stderr)

/-- Strips the optional `<html><body>...</body></html>` wrapper from the
visualization artefact, after removing newlines (`case_runner.py:1172`). -/
def stripVisWrapper (s : String) : String :=
  let l := s.toList.filter (fun c => c ≠ '\n')
  let l := if charsBegins "<html><body>".toList l then l.drop 12 else l
  let r := l.reverse
  let l := if charsBegins "</body></html>".toList.reverse r then (r.drop 14).reverse else l
  String.mk l

/-- Per-case observations of one BATCH pipeline: what the run
container, the files, the judge container and the visualizer produced. -/
structure CaseData where
  run_exit : Int
  run_host : Rat
  run_stderr : String
  output_content : String
  profiles_content : String
  judge_exit : Int
  judge_stderr : String
  vis_fails : Bool
  vis_text : String

/-- Embedding of `case_iter_func` (`case_runner.py:1067-1187`) for
BATCH problems: run container, profile parse, judge, optional
visualization.  `.error` is a Python exception escaping the case
(parse exception, visualizer failure). -/
def case_iter_func (decode : String → ProfilesDecode) (time_limit : Rat)
    (memory_limit : Int) (return_details skip_local_visualization no_local_vis : Bool)
    (input_str : String) (d : CaseData) : Except String CaseResult :=
  let result_input_str := if return_details then some input_str else none
  match run_batch_run_container time_limit d.run_exit d.run_host d.run_stderr
      result_input_str with
  | .inl cr => .ok cr
  | .inr (execution_time_host, stderr) =>
    let result_output_str := if return_details then some d.output_content else none
    let result_error_str := if return_details then some stderr else none
    match parse_profiles decode time_limit memory_limit d.profiles_content
        execution_time_host result_input_str result_output_str result_error_str with
    | .error e => .error e
    | .ok (.inl cr) => .ok cr
    | .ok (.inr (execution_time, memory_usage)) =>
      match run_batch_judge_container d.judge_exit d.judge_stderr execution_time_host
          result_input_str result_output_str result_error_str with
      | .inl cr => .ok cr
      | .inr score =>
        if ¬ skip_local_visualization ∧ ¬ no_local_vis then
          if d.vis_fails then
            .error "Failed to run the visualization command. Something went wrong."
          else if stripVisWrapper d.vis_text = "" then
            .error "The local visualization file is empty. Something went wrong."
          else
            .ok ⟨result_input_str, result_output_str, result_error_str, .accepted, "",
              score, some (), execution_time, memory_usage⟩
        else
          .ok ⟨result_input_str, result_output_str, result_error_str, .accepted, "",
            score, none, execution_time, memory_usage⟩

/-- Worker-pool exception wrapper of `_run_cases_docker`
(`case_runner.py:1527-1542`). -/
def internalErrorCase (input_str : Option String) (msg : String) : CaseResult :=
  rejCase input_str none none .internalError msg 0 0

/-- Sequential loop over the cases: the Python `for` loop of the
one-worker path, where the first exception escapes `run_cases`. -/
def runSeq (f : Nat × String → Except String CaseResult) :
    List (Nat × String) → Except String (List CaseResult)
  | [] => .ok []
  | x :: rest =>
      match f x with
      | .error e => .error e
      | .ok r =>
        match runSeq f rest with
        | .error e => .error e
        | .ok rs => .ok (r :: rs)

/-- Embedding of `_run_cases_docker` (`case_runner.py:1454-1544`), the
Docker path of `run_cases`: compile once; on failure replicate the
compile verdict; otherwise either a sequential loop (one input or one
worker; a case exception propagates) or a worker pool (each index gets
its own result, exceptions become INTERNAL_ERROR for that index). -/
def run_cases_docker (decode : String → ProfilesDecode) (lang : CodeLanguage)
    (compile_outcome : CompileOutcome) (time_limit : Rat) (memory_limit : Int)
    (return_details skip_local_visualization no_local_vis : Bool)
    (inputs : List String) (caseData : Nat → CaseData) (num_workers : Nat) :
    Except String (List CaseResult) :=
  match run_compile_container lang compile_outcome with
  | some compile_result => .ok (List.replicate inputs.length compile_result)
  | none =>
    if inputs.length = 1 ∨ num_workers = 1 then
      runSeq (fun p =>
        case_iter_func decode time_limit memory_limit return_details
          skip_local_visualization no_local_vis p.2 (caseData p.1)) inputs.enum
    else
      .ok ((inputs.enum).map (fun p =>
        match case_iter_func decode time_limit memory_limit return_details
            skip_local_visualization no_local_vis p.2 (caseData p.1) with
        | .ok r => r
        | .error e =>
          internalErrorCase (if return_details then some p.2 else none)
            ("Internal Error: " ++ e)))

/-- Resource counters of `ResourceUsage` (`ale_bench/result.py`, used by
`session.py`); the spec describes them as non-negative counters with
componentwise `+`.  Times are rationals, counts naturals. -/
structure ResourceUsage where
  num_case_gen : Nat := 0
  num_case_eval : Nat := 0
  execution_time_case_eval : Rat := 0
  num_call_public_eval : Nat := 0
  num_call_private_eval : Nat := 0
deriving DecidableEq

/-- Componentwise addition of `ResourceUsage`. -/
def ResourceUsage.add (a b : ResourceUsage) : ResourceUsage :=
  ⟨a.num_case_gen + b.num_case_gen, a.num_case_eval + b.num_case_eval,
   a.execution_time_case_eval + b.execution_time_case_eval,
   a.num_call_public_eval + b.num_call_public_eval,
   a.num_call_private_eval + b.num_call_private_eval⟩

instance : Add ResourceUsage := ⟨ResourceUsage.add⟩

/-- Componentwise order on `ResourceUsage`. -/
def ruLe (a b : ResourceUsage) : Prop :=
  a.num_case_gen ≤ b.num_case_gen ∧ a.num_case_eval ≤ b.num_case_eval ∧
  a.execution_time_case_eval ≤ b.execution_time_case_eval ∧
  a.num_call_public_eval ≤ b.num_call_public_eval ∧
  a.num_call_private_eval ≤ b.num_call_private_eval

instance (a b : ResourceUsage) : Decidable (ruLe a b) := by
  unfold ruLe; infer_instance

/-- The six session actions (`AleBenchFunction` in `session.py`). -/
inductive AleBenchFunction where
  | code_run
  | case_gen
  | case_eval
  | case_gen_eval
  | public_eval
  | private_eval
deriving DecidableEq

/-- String value of each action name (the Python enum value). -/
def AleBenchFunction.value : AleBenchFunction → String
  | .code_run => "code_run"
  | .case_gen => "case_gen"
  | .case_eval => "case_eval"
  | .case_gen_eval => "case_gen_eval"
  | .public_eval => "public_eval"
  | .private_eval => "private_eval"

/-- The strict before-check over the guarded fields of an action
(`CHECK_RESOURCE_USAGE_FIELDS`, `session.py:35-42`, used with `<` in
`_check_within_resource_usage_before`). -/
def checkFieldsLt (cur maxru : ResourceUsage) : AleBenchFunction → Bool
  | .code_run => decide (cur.execution_time_case_eval < maxru.execution_time_case_eval)
  | .case_gen => decide (cur.num_case_gen < maxru.num_case_gen)
  | .case_eval =>
      decide (cur.num_case_eval < maxru.num_case_eval) &&
      decide (cur.execution_time_case_eval < maxru.execution_time_case_eval)
  | .case_gen_eval =>
      decide (cur.num_case_gen < maxru.num_case_gen) &&
      decide (cur.num_case_eval < maxru.num_case_eval) &&
      decide (cur.execution_time_case_eval < maxru.execution_time_case_eval)
  | .public_eval => decide (cur.num_call_public_eval < maxru.num_call_public_eval)
  | .private_eval => decide (cur.num_call_private_eval < maxru.num_call_private_eval)

/-- The non-strict after-check over the guarded fields of an action
(`_check_within_resource_usage_after`, `session.py:961-973`). -/
def checkFieldsLe (cur maxru : ResourceUsage) : AleBenchFunction → Bool
  | .code_run => decide (cur.execution_time_case_eval ≤ maxru.execution_time_case_eval)
  | .case_gen => decide (cur.num_case_gen ≤ maxru.num_case_gen)
  | .case_eval =>
      decide (cur.num_case_eval ≤ maxru.num_case_eval) &&
      decide (cur.execution_time_case_eval ≤ maxru.execution_time_case_eval)
  | .case_gen_eval =>
      decide (cur.num_case_gen ≤ maxru.num_case_gen) &&
      decide (cur.num_case_eval ≤ maxru.num_case_eval) &&
      decide (cur.execution_time_case_eval ≤ maxru.execution_time_case_eval)
  | .public_eval => decide (cur.num_call_public_eval ≤ maxru.num_call_public_eval)
  | .private_eval => decide (cur.num_call_private_eval ≤ maxru.num_call_private_eval)

/-- Immutable session parameters.  Wall-clock instants are rationals
(seconds since the 1970 epoch, which is instant `0`); the submission
interval is the problem constant used by `next_public_eval_time`. -/
structure SessionParams where
  maximum_resource_usage : ResourceUsage
  session_started_at : Rat
  session_duration : Rat
  use_same_time_scale : Bool
  submission_interval : Rat
deriving DecidableEq

/-- Mutable session state (`session.py:98-101`). -/
structure SessionState where
  current_resource_usage : ResourceUsage
  action_log : List String
  last_public_eval_time : Rat
  last_private_eval_time : Rat
deriving DecidableEq

/-- Fresh state at construction: zero usage, empty log, both last-eval
instants at the 1970 epoch (instant `0`). -/
def initState : SessionState := ⟨{}, [], 0, 0⟩

/-- Property `next_public_eval_time` (`session.py:859-871`). -/
def next_public_eval_time (P : SessionParams) (s : SessionState) : Rat :=
  if P.use_same_time_scale then s.last_public_eval_time + P.submission_interval
  else s.last_public_eval_time

/-- Property `session_remaining_time` (`session.py:900-907`). -/
def session_remaining_time (P : SessionParams) (now : Rat) : Rat :=
  P.session_started_at + P.session_duration - now

/-- Embedding of `_check_within_resource_usage_before`
(`session.py:941-959`): lifetime, strict budget, and (for
`public_eval` under the same time scale) the submission interval. -/
def checkBefore (P : SessionParams) (s : SessionState) (now : Rat)
    (f : AleBenchFunction) : Except String Unit :=
  if session_remaining_time P now ≤ 0 then
    .error "The session has already finished."
  else if ¬ checkFieldsLt s.current_resource_usage P.maximum_resource_usage f then
    .error ("Exceeded the maximum resource usage for the `" ++ f.value ++ "` function.")
  else if P.use_same_time_scale ∧ f = .public_eval ∧ now < next_public_eval_time P s then
    .error "The next public evaluation is not allowed yet."
  else .ok ()

/-- Embedding of `_check_within_resource_usage_after`. -/
def checkAfter (P : SessionParams) (s : SessionState) (f : AleBenchFunction) :
    Except String Unit :=
  if checkFieldsLe s.current_resource_usage P.maximum_resource_usage f then .ok ()
  else .error ("Exceeded the maximum resource usage for the `" ++ f.value ++
    "` function after the action.")

/-- The common prologue of every action: `if self.session_finished`
wrapped in try/except (`session.py:160-164` and peers).
`session_finished` calls `_check_within_resource_usage_before` for
`private_eval`; any error it raises is re-raised as
"The session is finished.". -/
def preamble (P : SessionParams) (s : SessionState) (now : Rat) : Except String Unit :=
  match checkBefore P s now .private_eval with
  | .error _ => .error "The session is finished."
  | .ok _ => .ok ()

/-- Embedding of `Session.code_run` (`session.py:131-212`).  The work
itself is `run_code`, entering as an `Except`-valued outcome carrying
the measured execution time; only that time is accounted. -/
def code_run (P : SessionParams) (s : SessionState) (now : Rat)
    (runOutcome : Except String Rat) : SessionState × Except String Unit :=
  match preamble P s now with
  | .error e => (s, .error e)
  | .ok _ =>
    match checkBefore P s now .code_run with
    | .error e => (s, .error e)
    | .ok _ =>
      match runOutcome with
      | .error e => (s, .error e)
      | .ok t =>
        let s1 := { s with current_resource_usage :=
          s.current_resource_usage + ⟨0, 0, t, 0, 0⟩ }
        match checkAfter P s1 .code_run with
        | .error e => (s1, .error e)
        | .ok _ => ({ s1 with action_log := s1.action_log ++ ["code_run"] }, .ok ())

/-- Seed validation of `_check_input_generation_arguments`
(`session.py:985-989`): every seed must fit an unsigned 64-bit
integer.  Seeds are naturals here, so only the upper bound matters. -/
def seedsValid (seeds : List Nat) : Bool :=
  seeds.all (fun x => decide (x ≤ 18446744073709551615))

/-- Embedding of `Session.case_gen` (`session.py:214-263`) on a seed
list.  `genOutcome` is what `generate_inputs` returned (or the
exception it raised). -/
def case_gen (P : SessionParams) (s : SessionState) (now : Rat)
    (seeds : List Nat) (genOutcome : Except String (List String)) :
    SessionState × Except String (List String) :=
  match preamble P s now with
  | .error e => (s, .error e)
  | .ok _ =>
    match checkBefore P s now .case_gen with
    | .error e => (s, .error e)
    | .ok _ =>
      if ¬ seedsValid seeds then
        (s, .error "`seed` must be between 0 and 2^64 - 1.")
      else
        match genOutcome with
        | .error e => (s, .error e)
        | .ok generated =>
          if generated.length = 0 then
            (s, .error "Failed to generate the case. Maybe you specified invalid arguments.")
          else if generated.length ≠ seeds.length then
            (s, .error "Something went wrong: The number of generated cases must match the number of seeds provided.")
          else
            let s1 := { s with current_resource_usage :=
              s.current_resource_usage + ⟨generated.length, 0, 0, 0, 0⟩ }
            match checkAfter P s1 .case_gen with
            | .error e => (s1, .error e)
            | .ok _ =>
              ({ s1 with action_log := s1.action_log ++ ["case_gen"] }, .ok generated)

/-- Embedding of `Session.case_eval` (`session.py:265-362`).
`evalOutcome` is the list of per-case execution times from
`run_cases` (or the exception it raised); the usage increment is the
case count plus the summed execution time. -/
def case_eval (P : SessionParams) (s : SessionState) (now : Rat)
    (inputs : List String) (evalOutcome : Except String (List Rat)) :
    SessionState × Except String Unit :=
  match preamble P s now with
  | .error e => (s, .error e)
  | .ok _ =>
    match checkBefore P s now .case_eval with
    | .error e => (s, .error e)
    | .ok _ =>
      if inputs.any (fun i => pyStrip i = "") then
        (s, .error "The input string is empty.")
      else
        match evalOutcome with
        | .error e => (s, .error e)
        | .ok times =>
          if times.length ≠ inputs.length then
            (s, .error "The number of case results must be equal to the number of input strings.")
          else
            let s1 := { s with current_resource_usage :=
              s.current_resource_usage + ⟨0, times.length, times.sum, 0, 0⟩ }
            match checkAfter P s1 .case_eval with
            | .error e => (s1, .error e)
            | .ok _ =>
              ({ s1 with action_log := s1.action_log ++ ["case_eval"] }, .ok ())

/-- Embedding of `Session.case_gen_eval` (`session.py:364-418`): the
combined pre-guard, then the composition of `case_gen` and
`case_eval`, then the combined after-check. -/
def case_gen_eval (P : SessionParams) (s : SessionState) (now : Rat)
    (seeds : List Nat) (genOutcome : Except String (List String))
    (evalOutcome : Except String (List Rat)) : SessionState × Except String Unit :=
  match preamble P s now with
  | .error e => (s, .error e)
  | .ok _ =>
    match checkBefore P s now .case_gen_eval with
    | .error e => (s, .error e)
    | .ok _ =>
      if ¬ seedsValid seeds then
        (s, .error "`seed` must be between 0 and 2^64 - 1.")
      else
        match case_gen P s now seeds genOutcome with
        | (s1, .error e) => (s1, .error e)
        | (s1, .ok generated) =>
          match case_eval P s1 now generated evalOutcome with
          | (s2, .error e) => (s2, .error e)
          | (s2, .ok _) =>
            match checkAfter P s2 .case_gen_eval with
            | .error e => (s2, .error e)
            | .ok _ => (s2, .ok ())

/-- Embedding of `Session.public_eval` (`session.py:473-552`).
`last_public_eval_time` is set right after argument validation and
before `run_cases` (`session.py:507`); `numPublic` is the number of
pre-generated public inputs (for the length assertion). -/
def public_eval (P : SessionParams) (s : SessionState) (now : Rat)
    (numPublic : Nat) (evalOutcome : Except String (List Rat)) :
    SessionState × Except String Unit :=
  match preamble P s now with
  | .error e => (s, .error e)
  | .ok _ =>
    match checkBefore P s now .public_eval with
    | .error e => (s, .error e)
    | .ok _ =>
      let s1 := { s with last_public_eval_time := now }
      match evalOutcome with
      | .error e => (s1, .error e)
      | .ok times =>
        if times.length ≠ numPublic then
          (s1, .error "The number of case results must be equal to the number of public seeds.")
        else
          let s2 := { s1 with current_resource_usage :=
            s1.current_resource_usage + ⟨0, 0, 0, 1, 0⟩ }
          match checkAfter P s2 .public_eval with
          | .error e => (s2, .error e)
          | .ok _ =>
            ({ s2 with action_log := s2.action_log ++ ["public_eval"] }, .ok ())

/-- Embedding of `Session.private_eval` (`session.py:554-656`), up to
the rank/performance computation (which reads immutable data only). -/
def private_eval (P : SessionParams) (s : SessionState) (now : Rat)
    (numPrivate : Nat) (evalOutcome : Except String (List Rat)) :
    SessionState × Except String Unit :=
  match preamble P s now with
  | .error e => (s, .error e)
  | .ok _ =>
    match checkBefore P s now .private_eval with
    | .error e => (s, .error e)
    | .ok _ =>
      let s1 := { s with last_private_eval_time := now }
      match evalOutcome with
      | .error e => (s1, .error e)
      | .ok times =>
        if times.length ≠ numPrivate then
          (s1, .error "The number of case results must be equal to the number of private seeds.")
        else
          let s2 := { s1 with current_resource_usage :=
            s1.current_resource_usage + ⟨0, 0, 0, 0, 1⟩ }
          match checkAfter P s2 .private_eval with
          | .error e => (s2, .error e)
          | .ok _ =>
            ({ s2 with action_log := s2.action_log ++ ["private_eval"] }, .ok ())

/-- One session action together with the outcomes of the external work
it performs. -/
inductive SAction where
  | codeRun (run : Except String Rat)
  | caseGen (seeds : List Nat) (gen : Except String (List String))
  | caseEval (inputs : List String) (eval : Except String (List Rat))
  | caseGenEval (seeds : List Nat) (gen : Except String (List String))
      (eval : Except String (List Rat))
  | publicEval (numPublic : Nat) (eval : Except String (List Rat))
  | privateEval (numPrivate : Nat) (eval : Except String (List Rat))

/-- Dispatch of one action against the session state. -/
def applyAction (P : SessionParams) (s : SessionState) (now : Rat) :
    SAction → SessionState × Except String Unit
  | .codeRun r => code_run P s now r
  | .caseGen seeds g =>
      let (s1, r) := case_gen P s now seeds g
      (s1, r.map fun _ => ())
  | .caseEval inputs ev => case_eval P s now inputs ev
  | .caseGenEval seeds g ev => case_gen_eval P s now seeds g ev
  | .publicEval n ev => public_eval P s now n ev
  | .privateEval n ev => private_eval P s now n ev

/-- One accepted (non-raising) action step. -/
def AcceptedStep (P : SessionParams) (s s' : SessionState) : Prop :=
  ∃ now a, (applyAction P s now a).1 = s' ∧ (applyAction P s now a).2 = .ok ()

/-- States reachable from the fresh session through accepted actions. -/
def ReachableState (P : SessionParams) (s : SessionState) : Prop :=
  Relation.ReflTransGen (AcceptedStep P) initState s

/-- Modelled from the spec: `Standings.score_rank_list` lives in
`ale_bench/data.py`, which is not among the provided sources.  Per the
spec, the sorted table `[(rank, score)]` (ranks ascending, scores
strictly descending and positive except the final score 0) expands to
`[(score, inclusive_low_rank, inclusive_high_rank)]` with ties
expanded: an entry's low rank is its own rank and its high rank is one
less than the next entry's rank (its own rank for the last entry),
matching the expectations of `tests/test_data.py::TestStandings`. -/
def score_rank_list : List (Nat × Int) → List (Int × Nat × Nat)
  | [] => []
  | (r, sc) :: rest =>
      (sc, r, match rest with | [] => r | (r2, _) :: _ => r2 - 1) :: score_rank_list rest

/-- Modelled from the spec: the absolute-score branch of
`Standings.get_new_rank` (`ale_bench/data.py`, not among the provided
sources).  For an overall absolute score `s`, find the first (hence
largest-score) entry with `score ≤ s`; the integer rank is its low
rank, the fractional rank is the midpoint `(lo + hi) / 2` on a score
tie and `lo` otherwise.  `none` covers a score below every table entry,
which the spec leaves undefined. -/
def get_new_rank_absolute (standings_scores : List (Nat × Int)) (s : Int) :
    Option (Nat × Rat) :=
  match (score_rank_list standings_scores).find? (fun e => decide (e.1 ≤ s)) with
  | some (sc, lo, hi) =>
      some (lo, if sc = s then ((lo : Rat) + (hi : Rat)) / 2 else (lo : Rat))
  | none => none

/-- Profile-derived execution time of a case, as `parse_profiles`
computes it when the record decodes. -/
def profExecTime (decode : String → ProfilesDecode) (content : String) : Option Rat :=
  match profilesStep content with
  | none => none
  | some (rest, _) =>
    match decode (pyStrip rest) with
    | .ok p => some (max p.elapsed_time_seconds (p.user_cpu_seconds + p.system_cpu_seconds))
    | _ => none

/-- Decoder producing a fixed healthy profile record, used in the
concrete runs below. -/
def decodeFixed (p : Profiles) : String → ProfilesDecode := fun _ => .ok p

/-- Which guarded-field set an action checks. -/
def SAction.fn : SAction → AleBenchFunction
  | .codeRun _ => .code_run
  | .caseGen _ _ => .case_gen
  | .caseEval _ _ => .case_eval
  | .caseGenEval _ _ _ => .case_gen_eval
  | .publicEval _ _ => .public_eval
  | .privateEval _ _ => .private_eval

/-- Session parameters used by the concrete examples: the test-suite
budget of `tests/test_session.py` (5 generations, 5 evaluations, 60 s,
3 public, 1 private), one hour of session time, 1800 s submission
interval. -/
def dummyParams : SessionParams := ⟨⟨5, 5, 60, 3, 1⟩, 0, 3600, true, 1800⟩

/-- Budget of the specification's rollback scenario:
`num_case_gen=2, num_case_eval=2, execution_time_case_eval=45.6`. -/
def specBudgetParams : SessionParams := ⟨⟨2, 2, 228/5, 3, 1⟩, 0, 3600, false, 1800⟩

end AleBench

namespace AleBench

set_option maxRecDepth 10000

lemma runSeq_ok_length (f : Nat × String → Except String CaseResult)
    (l : List (Nat × String)) (rs : List CaseResult)
    (h : runSeq f l = .ok rs) : rs.length = l.length := by
  induction l generalizing rs with
  | nil => simp [runSeq] at h; simp [← h]
  | cons x rest ih =>
    simp only [runSeq] at h
    cases hf : f x with
    | error e => rw [hf] at h; simp at h
    | ok r =>
      rw [hf] at h
      cases hr : runSeq f rest with
      | error e => rw [hr] at h; simp at h
      | ok rs2 =>
        rw [hr] at h
        simp at h
        subst h
        simp [ih rs2 hr]

/-- C3 (amended): every `.ok` result of `run_cases_docker` has exactly
one `CaseResult` per input, and in the parallel path (more than one
worker and more than one input) each index `i` receives exactly the
result of its own case pipeline — an exception becomes an
INTERNAL_ERROR for that index and no other index is affected.  The
original claim is amended because in the sequential path (one input or
one worker) a case exception propagates out of `run_cases` instead of
becoming an INTERNAL_ERROR for that index. -/
theorem run_cases_length_and_parallel_isolation
    (decode : String → ProfilesDecode) (lang : CodeLanguage) (co : CompileOutcome)
    (tl : Rat) (ml : Int) (rd sv nv : Bool) (inputs : List String)
    (caseData : Nat → CaseData) (nw : Nat) :
    (∀ rs, run_cases_docker decode lang co tl ml rd sv nv inputs caseData nw = .ok rs →
      rs.length = inputs.length)
    ∧ (1 < nw → 1 < inputs.length → run_compile_container lang co = none →
      ∃ rs, run_cases_docker decode lang co tl ml rd sv nv inputs caseData nw = .ok rs ∧
        rs.length = inputs.length ∧
        ∀ i (hi : i < inputs.length),
          rs[i]? = some (match case_iter_func decode tl ml rd sv nv (inputs.get ⟨i, hi⟩)
              (caseData i) with
            | .ok r => r
            | .error e =>
              internalErrorCase (if rd then some (inputs.get ⟨i, hi⟩) else none)
                ("Internal Error: " ++ e))) := by
  constructor
  · intro rs h
    unfold run_cases_docker at h
    cases hcc : run_compile_container lang co with
    | some ce =>
      rw [hcc] at h
      simp at h
      simp [← h]
    | none =>
      rw [hcc] at h
      by_cases hseq : inputs.length = 1 ∨ nw = 1
      · rw [if_pos hseq] at h
        have := runSeq_ok_length _ _ _ h
        simpa using this
      · rw [if_neg hseq] at h
        simp at h
        simp [← h]
  · intro hnw hlen hcc
    have hseq : ¬ (inputs.length = 1 ∨ nw = 1) := by omega
    refine ⟨_, by rw [run_cases_docker, hcc, if_neg hseq], by simp, ?_⟩
    intro i hi
    simp only [List.getElem?_map]
    rw [List.getElem?_enum]
    simp [List.getElem?_eq_getElem hi]


/-- C3 counterexample: in the sequential path (a single input), a
profiles file consisting of only the signal-9 line makes `parse_profiles`
raise `list index out of range`, which escapes `run_cases` as an error
instead of yielding an INTERNAL_ERROR result for that index. -/
theorem run_cases_sequential_exception_escapes :
    run_cases_docker (fun _ => ProfilesDecode.jsonError) .rust (.finished ⟨0, "", 1⟩)
      2 1000000 true true true ["x"]
      (fun _ => ⟨0, 1, "", "", "Command terminated by signal 9", 0, "", false, ""⟩) 13 =
    .error "list index out of range" := by
  have h1 : pyStartsWith "Command terminated by signal 9" "Command terminated by signal 9" = true := by
    decide
  have h2 : pyDropFirstLine "Command terminated by signal 9" = none := by decide
  norm_num [run_cases_docker, run_compile_container, compileFinishCheck, runSeq,
    case_iter_func, run_batch_run_container, parse_profiles, profilesStep, h1, h2,
    List.enum, List.enumFrom]
  simp [pyStrip]

/-- C4: `parse_profiles` applies the spec's rules in order — empty
content gives RUNTIME_ERROR at host time when within the limit and
TIME_LIMIT_EXCEEDED otherwise; a leading signal-9 line is dropped and
sets the TLE flag; a leading non-zero-status line is dropped; a decode
failure gives WRONG_ANSWER and invalid fields give INTERNAL_ERROR; and
for a decoded record with `execution_time = max(wall, user+sys)` and
`memory_usage = max_rss_kb * 1024`, nonzero exit gives RUNTIME_ERROR,
over-limit time or the TLE flag gives TIME_LIMIT_EXCEEDED clamped to
`time_limit + 0.1`, over-limit memory gives MEMORY_LIMIT_EXCEEDED, and
otherwise the structured `(execution_time, memory_usage)` is returned. -/
theorem parse_profiles_rules (decode : String → ProfilesDecode) (tl : Rat) (ml : Int)
    (content : String) (host : Rat) (inp out err : Option String)
    (hhost : 0 ≤ host) :
    (content = "" → host ≤ tl →
      parse_profiles decode tl ml content host inp out err =
        .ok (.inl (rejCase inp out err .runtimeError "Runtime error." host 0)))
    ∧ (content = "" → tl < host →
      parse_profiles decode tl ml content host inp out err =
        .ok (.inl (rejCase inp out err .timeLimitExceeded "Time limit exceeded."
          (min host (tl + 1/10)) 0)))
    ∧ (pyStartsWith content "Command terminated by signal 9" = true →
      profilesStep content = (pyDropFirstLine content).map (fun r => (r, true)))
    ∧ (pyStartsWith content "Command terminated by signal 9" = false →
       pyStartsWith content "Command exited with non-zero status" = true →
      profilesStep content = (pyDropFirstLine content).map (fun r => (r, false)))
    ∧ (∀ rest flag, content ≠ "" → profilesStep content = some (rest, flag) →
      decode (pyStrip rest) = .jsonError →
      parse_profiles decode tl ml content host inp out err =
        .ok (.inl (rejCase inp out err .wrongAnswer "Wrong answer."
          (min host (tl + 1/10)) 0)))
    ∧ (∀ rest flag, content ≠ "" → profilesStep content = some (rest, flag) →
      decode (pyStrip rest) = .invalidFields →
      parse_profiles decode tl ml content host inp out err =
        .ok (.inl (rejCase inp out err .internalError
          "Internal Error: Invalid profiles format." (min host (tl + 1/10)) 0)))
    ∧ (∀ rest flag p, content ≠ "" → profilesStep content = some (rest, flag) →
      decode (pyStrip rest) = .ok p →
      (p.exit_status ≠ 0 →
        parse_profiles decode tl ml content host inp out err =
          .ok (.inl (rejCase inp out err .runtimeError "Runtime error."
            (min (max p.elapsed_time_seconds (p.user_cpu_seconds + p.system_cpu_seconds))
              (tl + 1/10)) (p.max_resident_set_size_kbytes * 1024))))
      ∧ (p.exit_status = 0 →
        (max p.elapsed_time_seconds (p.user_cpu_seconds + p.system_cpu_seconds) > tl ∨
          flag = true) →
        parse_profiles decode tl ml content host inp out err =
          .ok (.inl (rejCase inp out err .timeLimitExceeded "Time limit exceeded."
            (min (max p.elapsed_time_seconds (p.user_cpu_seconds + p.system_cpu_seconds))
              (tl + 1/10)) (p.max_resident_set_size_kbytes * 1024))))
      ∧ (p.exit_status = 0 →
        max p.elapsed_time_seconds (p.user_cpu_seconds + p.system_cpu_seconds) ≤ tl →
        flag = false → p.max_resident_set_size_kbytes * 1024 > ml →
        parse_profiles decode tl ml content host inp out err =
          .ok (.inl (rejCase inp out err .memoryLimitExceeded "Memory limit exceeded."
            (max p.elapsed_time_seconds (p.user_cpu_seconds + p.system_cpu_seconds))
            (p.max_resident_set_size_kbytes * 1024))))
      ∧ (p.exit_status = 0 →
        max p.elapsed_time_seconds (p.user_cpu_seconds + p.system_cpu_seconds) ≤ tl →
        flag = false → p.max_resident_set_size_kbytes * 1024 ≤ ml →
        parse_profiles decode tl ml content host inp out err =
          .ok (.inr (max p.elapsed_time_seconds (p.user_cpu_seconds + p.system_cpu_seconds),
            p.max_resident_set_size_kbytes * 1024)))) := by
  have hnn : ¬ host < 0 := not_lt.mpr hhost
  refine ⟨?_, ?_, ?_, ?_, ?_, ?_, ?_⟩
  · intro h1 h2
    have h3 : ¬ host > tl := not_lt.mpr h2
    simp [parse_profiles, h1, hnn, h3]
  · intro h1 h2
    simp [parse_profiles, h1, hnn, h2]
  · intro h
    simp [profilesStep, h]
  · intro h1 h2
    simp [profilesStep, h1, h2]
  · intro rest flag hc hstep hdec
    simp [parse_profiles, hnn, hc, hstep, hdec]
  · intro rest flag hc hstep hdec
    simp [parse_profiles, hnn, hc, hstep, hdec]
  · intro rest flag p hc hstep hdec
    refine ⟨?_, ?_, ?_, ?_⟩
    · intro hne
      simp [parse_profiles, hnn, hc, hstep, hdec, hne]
    · intro hz htle
      rcases htle with h | h
      · simp [parse_profiles, hnn, hc, hstep, hdec, hz, h]
      · simp [parse_profiles, hnn, hc, hstep, hdec, hz, h]
    · intro hz ht hf hm
      have ht' : ¬ max p.elapsed_time_seconds (p.user_cpu_seconds + p.system_cpu_seconds) > tl :=
        not_lt.mpr ht
      simp [parse_profiles, hnn, hc, hstep, hdec, hz, ht', hf, hm]
    · intro hz ht hf hm
      have ht' : ¬ max p.elapsed_time_seconds (p.user_cpu_seconds + p.system_cpu_seconds) > tl :=
        not_lt.mpr ht
      have hm' : ¬ p.max_resident_set_size_kbytes * 1024 > ml := not_lt.mpr hm
      simp [parse_profiles, hnn, hc, hstep, hdec, hz, ht', hf, hm']


/-- C5: the judge step of a BATCH case yields WRONG_ANSWER with the
tester's stderr when the tester exits non-zero; WRONG_ANSWER with the
extracted reason when stderr contains `wrong answer: `; WRONG_ANSWER
(`no score found`) when stderr is empty; the extracted integer score
when the last stderr line matches `Score = (digits)`; and WRONG_ANSWER
with the stderr in every other case. -/
theorem run_batch_judge_rules (je : Int) (serr : String) (host : Rat)
    (inp out err : Option String) :
    (je ≠ 0 → run_batch_judge_container je serr host inp out err =
      .inl (rejCase inp out err .wrongAnswer
        ("Wrong answer.\nStandard error:\n" ++ pyStrip serr) host 0))
    ∧ (je = 0 → pyContains (pyStrip serr) "wrong answer: " = true →
      run_batch_judge_container je serr host inp out err =
      .inl (rejCase inp out err .wrongAnswer
        ("Wrong answer.\n" ++ pyAfterFirst (pyStrip serr) "wrong answer: ") host 0))
    ∧ (je = 0 → pyContains (pyStrip serr) "wrong answer: " = false →
      pyStrip (pyStrip serr) = "" →
      run_batch_judge_container je serr host inp out err =
      .inl (rejCase inp out err .wrongAnswer
        "Wrong answer.\nStandard error is empty (no score found)" host 0))
    ∧ (∀ n, je = 0 → pyContains (pyStrip serr) "wrong answer: " = false →
      pyStrip (pyStrip serr) ≠ "" →
      scoreLineMatch ((pySplitLines (pyStrip serr)).getLastD "") = some n →
      run_batch_judge_container je serr host inp out err = .inr n)
    ∧ (je = 0 → pyContains (pyStrip serr) "wrong answer: " = false →
      pyStrip (pyStrip serr) ≠ "" →
      scoreLineMatch ((pySplitLines (pyStrip serr)).getLastD "") = none →
      run_batch_judge_container je serr host inp out err =
      .inl (rejCase inp out err .wrongAnswer
        ("Wrong answer.\nStandard error:\n" ++ pyStrip serr) host 0)) := by
  refine ⟨?_, ?_, ?_, ?_, ?_⟩
  · intro h
    simp [run_batch_judge_container, h]
  · intro h1 h2
    simp [run_batch_judge_container, h1, h2]
  · intro h1 h2 h3
    simp [run_batch_judge_container, h1, h2, h3]
  · intro n h1 h2 h3 h4
    simp only [List.getLastD_eq_getLast?] at h4
    simp [run_batch_judge_container, h1, h2, h3, h4]
  · intro h1 h2 h3 h4
    simp only [List.getLastD_eq_getLast?] at h4
    simp [run_batch_judge_container, h1, h2, h3, h4]


/-- C6: whenever compilation fails (compile timeout for a non-Python
language, non-zero compile exit, a zero-size object artefact for a
non-Python language, or `SyntaxError` in Python's stderr), the run
returns one identical COMPILATION_ERROR `CaseResult` per input, each
with the rejected sentinel score. -/
theorem compile_failure_replicates (decode : String → ProfilesDecode)
    (lang : CodeLanguage) (co : CompileOutcome) (tl : Rat) (ml : Int)
    (rd sv nv : Bool) (inputs : List String) (caseData : Nat → CaseData)
    (nw : Nat)
    (H : (∃ f, co = .timeout f ∧ lang ≠ .python) ∨
      (∃ f, (co = .finished f ∨ (co = .timeout f ∧ lang = .python)) ∧
        (f.exit_code ≠ 0 ∨ (lang ≠ .python ∧ f.object_size = 0) ∨
          (lang = .python ∧ pyContains (pyStrip f.stderr_raw) "SyntaxError" = true)))) :
    ∃ ce, run_cases_docker decode lang co tl ml rd sv nv inputs caseData nw =
        .ok (List.replicate inputs.length ce) ∧
      ce.judge_result = .compilationError ∧
      ce.absolute_score = REJECTED_ABSOLUTE_SCORE := by
  have key : ∃ ce, run_compile_container lang co = some ce ∧
      ce.judge_result = .compilationError ∧
      ce.absolute_score = REJECTED_ABSOLUTE_SCORE := by
    rcases H with ⟨f, hco, hlang⟩ | ⟨f, hco, hcond⟩
    · subst hco
      exact ⟨rejCase none none none .compilationError "Compilation timed out (60s)." 0 0,
        by simp [run_compile_container, hlang], rfl, rfl⟩
    · have hcheck : compileFinishCheck lang f =
          some (rejCase none none none .compilationError
            ("Failed to compile the code.\nStandard error:\n" ++ pyStrip f.stderr_raw) 0 0) := by
        simp only [compileFinishCheck]
        rw [if_pos]
        · rcases hcond with h | ⟨h1, h2⟩ | ⟨h1, h2⟩
          · exact Or.inl h
          · exact Or.inr (Or.inl ⟨h1, h2⟩)
          · exact Or.inr (Or.inr ⟨h1, h2⟩)
      rcases hco with hco | ⟨hco, hpy⟩
      · subst hco
        exact ⟨rejCase none none none .compilationError
          ("Failed to compile the code.\nStandard error:\n" ++ pyStrip f.stderr_raw) 0 0,
          by simpa [run_compile_container] using hcheck, rfl, rfl⟩
      · subst hco
        exact ⟨rejCase none none none .compilationError
          ("Failed to compile the code.\nStandard error:\n" ++ pyStrip f.stderr_raw) 0 0,
          by simpa [run_compile_container, hpy] using hcheck, rfl, rfl⟩
  obtain ⟨ce, hce, h1, h2⟩ := key
  exact ⟨ce, by simp [run_cases_docker, hce], h1, h2⟩


lemma parse_profiles_inl_props (decode : String → ProfilesDecode) (tl : Rat) (ml : Int)
    (content : String) (host : Rat) (inp out err : Option String) (cr : CaseResult)
    (hhost : 0 ≤ host) (htl : 0 < tl)
    (hdec : ∀ s p, decode s = .ok p →
      0 ≤ p.elapsed_time_seconds ∧ 0 ≤ p.user_cpu_seconds ∧ 0 ≤ p.system_cpu_seconds)
    (h : parse_profiles decode tl ml content host inp out err = .ok (.inl cr)) :
    0 ≤ cr.execution_time ∧
    (cr.judge_result = .timeLimitExceeded →
      cr.execution_time = min host (tl + 1/10) ∨
      ∃ t, profExecTime decode content = some t ∧ cr.execution_time = min t (tl + 1/10)) ∧
    cr.execution_time ≤ tl + 1/10 := by
  have htl10 : (0 : Rat) ≤ tl + 1/10 := by linarith
  unfold parse_profiles at h
  rw [if_neg (not_lt.mpr hhost)] at h
  by_cases hc : content = ""
  · rw [if_pos hc] at h
    by_cases hht : host > tl
    · rw [if_pos hht] at h
      simp only [Except.ok.injEq, Sum.inl.injEq] at h
      subst h
      refine ⟨le_min hhost htl10, fun _ => Or.inl rfl, min_le_right _ _⟩
    · rw [if_neg hht] at h
      simp only [Except.ok.injEq, Sum.inl.injEq] at h
      subst h
      exact ⟨hhost, fun hx => by simp [rejCase] at hx, by
        simp only [rejCase]
        push_neg at hht
        linarith⟩
  · rw [if_neg hc] at h
    cases hps : profilesStep content with
    | none => rw [hps] at h; simp at h
    | some pr =>
      obtain ⟨rest, flag⟩ := pr
      rw [hps] at h
      simp only at h
      cases hdc : decode (pyStrip rest) with
      | jsonError =>
        rw [hdc] at h
        simp only [Except.ok.injEq, Sum.inl.injEq] at h
        subst h
        exact ⟨le_min hhost htl10, fun hx => by simp [rejCase] at hx, min_le_right _ _⟩
      | invalidFields =>
        rw [hdc] at h
        simp only [Except.ok.injEq, Sum.inl.injEq] at h
        subst h
        exact ⟨le_min hhost htl10, fun hx => by simp [rejCase] at hx, min_le_right _ _⟩
      | ok p =>
        rw [hdc] at h
        simp only at h
        obtain ⟨h1, h2, h3⟩ := hdec _ _ hdc
        have het : 0 ≤ max p.elapsed_time_seconds (p.user_cpu_seconds + p.system_cpu_seconds) :=
          le_max_of_le_left h1
        have hpet : profExecTime decode content =
            some (max p.elapsed_time_seconds (p.user_cpu_seconds + p.system_cpu_seconds)) := by
          simp [profExecTime, hps, hdc]
        by_cases hex : p.exit_status ≠ 0
        · rw [if_pos hex] at h
          simp only [Except.ok.injEq, Sum.inl.injEq] at h
          subst h
          exact ⟨le_min het htl10, fun hx => by simp [rejCase] at hx, min_le_right _ _⟩
        · rw [if_neg hex] at h
          by_cases htle : max p.elapsed_time_seconds (p.user_cpu_seconds + p.system_cpu_seconds) > tl ∨ flag = true
          · rw [if_pos htle] at h
            simp only [Except.ok.injEq, Sum.inl.injEq] at h
            subst h
            exact ⟨le_min het htl10, fun _ => Or.inr ⟨_, hpet, rfl⟩, min_le_right _ _⟩
          · rw [if_neg htle] at h
            push_neg at htle
            by_cases hm : p.max_resident_set_size_kbytes * 1024 > ml
            · rw [if_pos hm] at h
              simp only [Except.ok.injEq, Sum.inl.injEq] at h
              subst h
              exact ⟨het, fun hx => by simp [rejCase] at hx, by
                simp only [rejCase]
                have := htle.1
                linarith⟩
            · rw [if_neg hm] at h
              simp at h

lemma parse_profiles_inr_props (decode : String → ProfilesDecode) (tl : Rat) (ml : Int)
    (content : String) (host : Rat) (inp out err : Option String) (t : Rat) (m : Int)
    (hdec : ∀ s p, decode s = .ok p →
      0 ≤ p.elapsed_time_seconds ∧ 0 ≤ p.user_cpu_seconds ∧ 0 ≤ p.system_cpu_seconds)
    (h : parse_profiles decode tl ml content host inp out err = .ok (.inr (t, m))) :
    0 ≤ t ∧ t ≤ tl := by
  unfold parse_profiles at h
  by_cases hhn : host < 0
  · rw [if_pos hhn] at h; simp at h
  rw [if_neg hhn] at h
  by_cases hc : content = ""
  · rw [if_pos hc] at h
    by_cases hht : host > tl
    · rw [if_pos hht] at h; simp at h
    · rw [if_neg hht] at h; simp at h
  · rw [if_neg hc] at h
    cases hps : profilesStep content with
    | none => rw [hps] at h; simp at h
    | some pr =>
      obtain ⟨rest, flag⟩ := pr
      rw [hps] at h
      simp only at h
      cases hdc : decode (pyStrip rest) with
      | jsonError => rw [hdc] at h; simp at h
      | invalidFields => rw [hdc] at h; simp at h
      | ok p =>
        rw [hdc] at h
        simp only at h
        obtain ⟨h1, h2, h3⟩ := hdec _ _ hdc
        by_cases hex : p.exit_status ≠ 0
        · rw [if_pos hex] at h; simp at h
        · rw [if_neg hex] at h
          by_cases htle : max p.elapsed_time_seconds (p.user_cpu_seconds + p.system_cpu_seconds) > tl ∨ flag = true
          · rw [if_pos htle] at h; simp at h
          · rw [if_neg htle] at h
            push_neg at htle
            by_cases hm : p.max_resident_set_size_kbytes * 1024 > ml
            · rw [if_pos hm] at h; simp at h
            · rw [if_neg hm] at h
              simp only [Except.ok.injEq, Sum.inr.injEq, Prod.mk.injEq] at h
              obtain ⟨ht, _⟩ := h
              subst ht
              exact ⟨le_max_of_le_left h1, htle.1⟩

lemma judge_inl_props (je : Int) (serr : String) (host : Rat)
    (inp out err : Option String) (cr : CaseResult)
    (h : run_batch_judge_container je serr host inp out err = .inl cr) :
    cr.execution_time = host ∧ cr.judge_result = .wrongAnswer := by
  unfold run_batch_judge_container at h
  by_cases h1 : je ≠ 0
  · rw [if_pos h1] at h
    simp only [Sum.inl.injEq] at h
    subst h; exact ⟨rfl, rfl⟩
  · rw [if_neg h1] at h
    by_cases h2 : pyContains (pyStrip serr) "wrong answer: " = true
    · rw [if_pos h2] at h
      simp only [Sum.inl.injEq] at h
      subst h; exact ⟨rfl, rfl⟩
    · rw [if_neg h2] at h
      by_cases h3 : pyStrip (pyStrip serr) = ""
      · rw [if_pos h3] at h
        simp only [Sum.inl.injEq] at h
        subst h; exact ⟨rfl, rfl⟩
      · rw [if_neg h3] at h
        cases hm : scoreLineMatch ((pySplitLines (pyStrip serr)).getLastD "") with
        | none =>
          rw [hm] at h
          simp only [Sum.inl.injEq] at h
          subst h; exact ⟨rfl, rfl⟩
        | some n => rw [hm] at h; simp at h


lemma run_container_inl_props (tl : Rat) (re : Int) (host : Rat) (serr : String)
    (inp : Option String) (cr : CaseResult) (hhost : 0 ≤ host) (htl : 0 < tl)
    (h : run_batch_run_container tl re host serr inp = .inl cr) :
    0 ≤ cr.execution_time ∧
    (cr.judge_result = .timeLimitExceeded → cr.execution_time = min host (tl + 1/10)) ∧
    cr.execution_time ≤ tl + 1/10 := by
  have htl10 : (0 : Rat) ≤ tl + 1/10 := by linarith
  unfold run_batch_run_container at h
  by_cases hre : re ≠ 0
  · rw [if_pos hre] at h
    by_cases hht : host > tl
    · rw [if_pos hht] at h
      simp only [Sum.inl.injEq] at h
      subst h
      exact ⟨le_min hhost htl10, fun _ => rfl, min_le_right _ _⟩
    · rw [if_neg hht] at h
      simp only [Sum.inl.injEq] at h
      subst h
      push_neg at hht
      exact ⟨hhost, fun hx => by simp [rejCase] at hx, by simp only [rejCase]; linarith⟩
  · rw [if_neg hre] at h
    simp at h

lemma run_container_inr_props (tl : Rat) (re : Int) (host : Rat) (serr : String)
    (inp : Option String) (x : Rat) (y : String)
    (h : run_batch_run_container tl re host serr inp = .inr (x, y)) :
    x = host := by
  unfold run_batch_run_container at h
  by_cases hre : re ≠ 0
  · rw [if_pos hre] at h
    by_cases hht : host > tl
    · rw [if_pos hht] at h; simp at h
    · rw [if_neg hht] at h; simp at h
  · rw [if_neg hre] at h
    simp only [Sum.inr.injEq, Prod.mk.injEq] at h
    exact h.1.symm

lemma compile_some_props (lang : CodeLanguage) (co : CompileOutcome) (ce : CaseResult)
    (h : run_compile_container lang co = some ce) :
    ce.execution_time = 0 ∧ ce.judge_result = .compilationError := by
  unfold run_compile_container at h
  have hfc : ∀ f : CompileFinish, compileFinishCheck lang f = some ce →
      ce.execution_time = 0 ∧ ce.judge_result = .compilationError := by
    intro f hf
    unfold compileFinishCheck at hf
    by_cases hcond : f.exit_code ≠ 0 ∨ (lang ≠ CodeLanguage.python ∧ f.object_size = 0) ∨
        (lang = CodeLanguage.python ∧ pyContains (pyStrip f.stderr_raw) "SyntaxError" = true)
    · rw [if_pos hcond] at hf
      simp only [Option.some.injEq] at hf
      subst hf
      exact ⟨rfl, rfl⟩
    · rw [if_neg hcond] at hf
      simp at hf
  cases co with
  | exn =>
    simp only [Option.some.injEq] at h
    subst h
    exact ⟨rfl, rfl⟩
  | timeout f =>
    simp only at h
    by_cases hl : lang ≠ CodeLanguage.python
    · rw [if_pos hl] at h
      simp only [Option.some.injEq] at h
      subst h
      exact ⟨rfl, rfl⟩
    · rw [if_neg hl] at h
      exact hfc f h
  | finished f => exact hfc f h

/-- Per-case bound properties. -/
lemma case_iter_ok_props (decode : String → ProfilesDecode) (tl : Rat) (ml : Int)
    (rd sv nv : Bool) (input : String) (d : CaseData) (r : CaseResult)
    (htl : 0 < tl) (hhost : 0 ≤ d.run_host)
    (hdec : ∀ s p, decode s = .ok p →
      0 ≤ p.elapsed_time_seconds ∧ 0 ≤ p.user_cpu_seconds ∧ 0 ≤ p.system_cpu_seconds)
    (h : case_iter_func decode tl ml rd sv nv input d = .ok r) :
    0 ≤ r.execution_time ∧
    (r.judge_result = .timeLimitExceeded →
      r.execution_time = min d.run_host (tl + 1/10) ∨
      ∃ t, profExecTime decode d.profiles_content = some t ∧
        r.execution_time = min t (tl + 1/10)) ∧
    (r.execution_time ≤ tl + 1/10 ∨ r.judge_result = .wrongAnswer) := by
  have htl10 : (0 : Rat) ≤ tl + 1/10 := by linarith
  unfold case_iter_func at h
  simp only at h
  cases hrun : run_batch_run_container tl d.run_exit d.run_host d.run_stderr
      (if rd then some input else none) with
  | inl cr =>
    rw [hrun] at h
    simp only [Except.ok.injEq] at h
    subst h
    obtain ⟨p1, p2, p3⟩ := run_container_inl_props _ _ _ _ _ _ hhost htl hrun
    exact ⟨p1, fun hx => Or.inl (p2 hx), Or.inl p3⟩
  | inr pr =>
    obtain ⟨eth, serr2⟩ := pr
    have heth : eth = d.run_host := run_container_inr_props _ _ _ _ _ _ _ hrun
    rw [hrun] at h
    simp only at h
    cases hpp : parse_profiles decode tl ml d.profiles_content eth
        (if rd then some input else none)
        (if rd then some d.output_content else none)
        (if rd then some serr2 else none) with
    | error e => rw [hpp] at h; simp at h
    | ok v =>
      rw [hpp] at h
      cases v with
      | inl cr =>
        simp only [Except.ok.injEq] at h
        subst h
        subst heth
        obtain ⟨p1, p2, p3⟩ := parse_profiles_inl_props _ _ _ _ _ _ _ _ _ hhost htl hdec hpp
        exact ⟨p1, fun hx => p2 hx, Or.inl p3⟩
      | inr tm =>
        obtain ⟨t, m⟩ := tm
        simp only at h
        cases hj : run_batch_judge_container d.judge_exit d.judge_stderr eth
            (if rd then some input else none)
            (if rd then some d.output_content else none)
            (if rd then some serr2 else none) with
        | inl cr =>
          rw [hj] at h
          simp only [Except.ok.injEq] at h
          subst h
          obtain ⟨q1, q2⟩ := judge_inl_props _ _ _ _ _ _ _ hj
          subst heth
          rw [q1]
          exact ⟨hhost, fun hx => by rw [q2] at hx; simp at hx, Or.inr q2⟩
        | inr score =>
          rw [hj] at h
          simp only at h
          obtain ⟨t1, t2⟩ := parse_profiles_inr_props _ _ _ _ _ _ _ _ _ _ hdec hpp
          by_cases hv : ¬ sv ∧ ¬ nv
          · rw [if_pos hv] at h
            by_cases hvf : d.vis_fails
            · rw [if_pos hvf] at h; simp at h
            · rw [if_neg hvf] at h
              by_cases hvt : stripVisWrapper d.vis_text = ""
              · rw [if_pos hvt] at h; simp at h
              · rw [if_neg hvt] at h
                simp only [Except.ok.injEq] at h
                subst h
                exact ⟨t1, fun hx => by simp at hx, Or.inl (by linarith)⟩
          · rw [if_neg hv] at h
            simp only [Except.ok.injEq] at h
            subst h
            exact ⟨t1, fun hx => by simp at hx, Or.inl (by linarith)⟩


lemma runSeq_ok_get (f : Nat × String → Except String CaseResult)
    (l : List (Nat × String)) (rs : List CaseResult)
    (h : runSeq f l = .ok rs) :
    rs.length = l.length ∧
    ∀ i (hi : i < rs.length) (hi2 : i < l.length),
      f (l.get ⟨i, hi2⟩) = .ok (rs.get ⟨i, hi⟩) := by
  induction l generalizing rs with
  | nil =>
    simp [runSeq] at h
    subst h
    simp
  | cons x rest ih =>
    simp only [runSeq] at h
    cases hf : f x with
    | error e => rw [hf] at h; simp at h
    | ok r =>
      rw [hf] at h
      cases hr : runSeq f rest with
      | error e => rw [hr] at h; simp at h
      | ok rs2 =>
        rw [hr] at h
        simp only [Except.ok.injEq] at h
        subst h
        obtain ⟨ihlen, ihget⟩ := ih rs2 hr
        refine ⟨by simp [ihlen], ?_⟩
        intro i hi hi2
        cases i with
        | zero => simpa using hf
        | succ j =>
          simp only [List.get_cons_succ]
          exact ihget j (by simpa using hi) (by simpa using hi2)

/-- C7 (amended): every `CaseResult` of a run has non-negative
execution time; every TIME_LIMIT_EXCEEDED result reports
`min(observed, time_limit + 0.1)` where the observed time is the host
wall time or the profile-derived time; and every result satisfies
`execution_time ≤ time_limit + 0.1` unless it is a WRONG_ANSWER.  The
original claim is amended because judge-step WRONG_ANSWER results carry
the unclamped host wall time, which can exceed `time_limit + 0.1`. -/
theorem run_cases_execution_time_bounds (decode : String → ProfilesDecode)
    (lang : CodeLanguage) (co : CompileOutcome) (tl : Rat) (ml : Int)
    (rd sv nv : Bool) (inputs : List String) (caseData : Nat → CaseData) (nw : Nat)
    (htl : 0 < tl) (hhost : ∀ i, 0 ≤ (caseData i).run_host)
    (hdec : ∀ s p, decode s = .ok p →
      0 ≤ p.elapsed_time_seconds ∧ 0 ≤ p.user_cpu_seconds ∧ 0 ≤ p.system_cpu_seconds)
    (rs : List CaseResult)
    (h : run_cases_docker decode lang co tl ml rd sv nv inputs caseData nw = .ok rs) :
    ∀ i (hi : i < rs.length),
      0 ≤ (rs.get ⟨i, hi⟩).execution_time ∧
      ((rs.get ⟨i, hi⟩).judge_result = .timeLimitExceeded →
        (rs.get ⟨i, hi⟩).execution_time = min (caseData i).run_host (tl + 1/10) ∨
        ∃ t, profExecTime decode (caseData i).profiles_content = some t ∧
          (rs.get ⟨i, hi⟩).execution_time = min t (tl + 1/10)) ∧
      ((rs.get ⟨i, hi⟩).execution_time ≤ tl + 1/10 ∨
        (rs.get ⟨i, hi⟩).judge_result = .wrongAnswer) := by
  have htl10 : (0 : Rat) ≤ tl + 1/10 := by linarith
  intro i hi
  unfold run_cases_docker at h
  cases hcc : run_compile_container lang co with
  | some ce =>
    rw [hcc] at h
    simp only [Except.ok.injEq] at h
    subst h
    obtain ⟨e1, e2⟩ := compile_some_props _ _ _ hcc
    have hget : (List.replicate inputs.length ce).get ⟨i, hi⟩ = ce := by
      simp [List.get_replicate]
    rw [hget, e1, e2]
    exact ⟨le_refl 0, fun hx => by simp at hx, Or.inl htl10⟩
  | none =>
    rw [hcc] at h
    by_cases hseq : inputs.length = 1 ∨ nw = 1
    · rw [if_pos hseq] at h
      obtain ⟨hlen, hget⟩ := runSeq_ok_get _ _ _ h
      have hi2 : i < inputs.enum.length := by rw [← hlen]; exact hi
      have := hget i hi hi2
      have henum : inputs.enum.get ⟨i, hi2⟩ = (i, inputs.get ⟨i, by simpa using hi2⟩) := by
        simp [List.get_enum]
      rw [henum] at this
      exact case_iter_ok_props _ _ _ _ _ _ _ _ _ htl (hhost i) hdec this
    · rw [if_neg hseq] at h
      simp only [Except.ok.injEq] at h
      subst h
      have hi2 : i < inputs.enum.length := by simpa using hi
      have hget : (inputs.enum.map _).get ⟨i, hi⟩ =
          (fun p => match case_iter_func decode tl ml rd sv nv p.2 (caseData p.1) with
            | .ok r => r
            | .error e =>
              internalErrorCase (if rd then some p.2 else none)
                ("Internal Error: " ++ e)) (inputs.enum.get ⟨i, hi2⟩) := by
        simp [List.get_map]
      rw [hget]
      have henum : inputs.enum.get ⟨i, hi2⟩ = (i, inputs.get ⟨i, by simpa using hi2⟩) := by
        simp [List.get_enum]
      rw [henum]
      cases hcase : case_iter_func decode tl ml rd sv nv
          (inputs.get ⟨i, by simpa using hi2⟩) (caseData i) with
      | ok r =>
        simp only [hcase]
        exact case_iter_ok_props _ _ _ _ _ _ _ _ _ htl (hhost i) hdec hcase
      | error e =>
        simp only [hcase]
        exact ⟨le_refl 0, fun hx => by simp [internalErrorCase, rejCase] at hx,
          Or.inl htl10⟩


/-- C7 counterexample: a case whose run step succeeds with host wall
time 10 under `time_limit = 2` and whose judge exits non-zero produces
a WRONG_ANSWER result with `execution_time = 10`, violating the claimed
bound `execution_time ≤ time_limit + 0.1`. -/
theorem judge_wa_exceeds_time_bound :
    run_cases_docker (decodeFixed ⟨0, 1, 1/2, 0, 16384⟩) .rust (.finished ⟨0, "", 1⟩)
      2 1073741824 true true true ["x"]
      (fun _ => ⟨0, 10, "", "out", "j", 1, "jerr", false, ""⟩) 1 =
      .ok [rejCase (some "x") (some "out") (some "") .wrongAnswer
        "Wrong answer.\nStandard error:\njerr" 10 0] ∧
    ¬ ((10 : Rat) ≤ 2 + 1/10) := by
  constructor
  · have h1 : pyStartsWith "j" "Command terminated by signal 9" = false := by decide
    have h2 : pyStartsWith "j" "Command exited with non-zero status" = false := by decide
    have h3 : pyStrip "" = "" := by decide
    have h4 : pyStrip "jerr" = "jerr" := by decide
    norm_num [run_cases_docker, run_compile_container, compileFinishCheck, runSeq,
      case_iter_func, run_batch_run_container, parse_profiles, profilesStep,
      run_batch_judge_container, decodeFixed, h1, h2, h3, h4,
      List.enum, List.enumFrom]
    have h5 : pyContains "" "SyntaxError" = false := by decide
    simp [h5]
  · norm_num


@[simp] lemma ru_add_gen (a b : ResourceUsage) :
    (a + b).num_case_gen = a.num_case_gen + b.num_case_gen := rfl
@[simp] lemma ru_add_eval (a b : ResourceUsage) :
    (a + b).num_case_eval = a.num_case_eval + b.num_case_eval := rfl
@[simp] lemma ru_add_time (a b : ResourceUsage) :
    (a + b).execution_time_case_eval =
      a.execution_time_case_eval + b.execution_time_case_eval := rfl
@[simp] lemma ru_add_pub (a b : ResourceUsage) :
    (a + b).num_call_public_eval = a.num_call_public_eval + b.num_call_public_eval := rfl
@[simp] lemma ru_add_priv (a b : ResourceUsage) :
    (a + b).num_call_private_eval = a.num_call_private_eval + b.num_call_private_eval := rfl

lemma checkBefore_ok_fields {P : SessionParams} {s : SessionState} {now : Rat}
    {f : AleBenchFunction} (h : checkBefore P s now f = .ok ()) :
    checkFieldsLt s.current_resource_usage P.maximum_resource_usage f = true := by
  unfold checkBefore at h
  by_cases h1 : session_remaining_time P now ≤ 0
  · rw [if_pos h1] at h; simp at h
  · rw [if_neg h1] at h
    by_cases h2 : ¬ checkFieldsLt s.current_resource_usage P.maximum_resource_usage f
    · rw [if_pos h2] at h; simp at h
    · simpa using h2

lemma checkAfter_ok {P : SessionParams} {s : SessionState} {f : AleBenchFunction}
    (h : checkAfter P s f = .ok ()) :
    checkFieldsLe s.current_resource_usage P.maximum_resource_usage f = true := by
  unfold checkAfter at h
  by_cases h1 : checkFieldsLe s.current_resource_usage P.maximum_resource_usage f
  · exact h1
  · rw [if_neg h1] at h; simp at h

lemma code_run_ok {P : SessionParams} {s : SessionState} {now : Rat}
    {r : Except String Rat} {s' : SessionState}
    (h : code_run P s now r = (s', .ok ())) :
    checkFieldsLt s.current_resource_usage P.maximum_resource_usage .code_run = true ∧
    (∃ t, s'.current_resource_usage = s.current_resource_usage + ⟨0, 0, t, 0, 0⟩) ∧
    checkFieldsLe s'.current_resource_usage P.maximum_resource_usage .code_run = true := by
  unfold code_run at h
  cases hpre : preamble P s now with
  | error e => rw [hpre] at h; simp at h
  | ok u =>
    rw [hpre] at h
    cases hcb : checkBefore P s now .code_run with
    | error e => rw [hcb] at h; simp at h
    | ok u2 =>
      rw [hcb] at h
      cases r with
      | error e => simp at h
      | ok t =>
        simp only at h
        cases hca : checkAfter P
            { s with current_resource_usage := s.current_resource_usage + ⟨0, 0, t, 0, 0⟩ }
            .code_run with
        | error e => rw [hca] at h; simp at h
        | ok u3 =>
          rw [hca] at h
          simp only [Prod.mk.injEq] at h
          obtain ⟨hs, -⟩ := h
          subst hs
          exact ⟨checkBefore_ok_fields hcb, ⟨t, rfl⟩, checkAfter_ok hca⟩


lemma case_gen_ok {P : SessionParams} {s : SessionState} {now : Rat}
    {seeds : List Nat} {g : Except String (List String)} {s' : SessionState}
    {out : List String}
    (h : case_gen P s now seeds g = (s', .ok out)) :
    checkFieldsLt s.current_resource_usage P.maximum_resource_usage .case_gen = true ∧
    s'.current_resource_usage = s.current_resource_usage + ⟨out.length, 0, 0, 0, 0⟩ ∧
    checkFieldsLe s'.current_resource_usage P.maximum_resource_usage .case_gen = true ∧
    s'.action_log = s.action_log ++ ["case_gen"] ∧
    s'.last_public_eval_time = s.last_public_eval_time ∧
    s'.last_private_eval_time = s.last_private_eval_time ∧
    g = .ok out := by
  unfold case_gen at h
  cases hpre : preamble P s now with
  | error e => rw [hpre] at h; simp at h
  | ok u =>
    rw [hpre] at h
    cases hcb : checkBefore P s now .case_gen with
    | error e => rw [hcb] at h; simp at h
    | ok u2 =>
      rw [hcb] at h
      by_cases hsv : ¬ seedsValid seeds
      · rw [if_pos hsv] at h; simp at h
      · rw [if_neg hsv] at h
        cases g with
        | error e => simp at h
        | ok generated =>
          simp only at h
          by_cases h0 : generated.length = 0
          · rw [if_pos h0] at h; simp at h
          · rw [if_neg h0] at h
            by_cases hne : generated.length ≠ seeds.length
            · rw [if_pos hne] at h; simp at h
            · rw [if_neg hne] at h
              cases hca : checkAfter P
                  { s with current_resource_usage :=
                    s.current_resource_usage + ⟨generated.length, 0, 0, 0, 0⟩ }
                  .case_gen with
              | error e => rw [hca] at h; simp at h
              | ok u3 =>
                rw [hca] at h
                simp only [Prod.mk.injEq, Except.ok.injEq] at h
                obtain ⟨hs, hout⟩ := h
                subst hs
                subst hout
                exact ⟨checkBefore_ok_fields hcb, rfl, checkAfter_ok hca, rfl, rfl, rfl, rfl⟩

lemma case_eval_ok {P : SessionParams} {s : SessionState} {now : Rat}
    {inputs : List String} {ev : Except String (List Rat)} {s' : SessionState}
    (h : case_eval P s now inputs ev = (s', .ok ())) :
    checkFieldsLt s.current_resource_usage P.maximum_resource_usage .case_eval = true ∧
    (∃ times : List Rat,
      s'.current_resource_usage =
        s.current_resource_usage + ⟨0, times.length, times.sum, 0, 0⟩) ∧
    checkFieldsLe s'.current_resource_usage P.maximum_resource_usage .case_eval = true ∧
    s'.last_public_eval_time = s.last_public_eval_time ∧
    s'.last_private_eval_time = s.last_private_eval_time := by
  unfold case_eval at h
  cases hpre : preamble P s now with
  | error e => rw [hpre] at h; simp at h
  | ok u =>
    rw [hpre] at h
    cases hcb : checkBefore P s now .case_eval with
    | error e => rw [hcb] at h; simp at h
    | ok u2 =>
      rw [hcb] at h
      by_cases hinp : inputs.any (fun i => pyStrip i = "")
      · rw [if_pos hinp] at h; simp at h
      · rw [if_neg hinp] at h
        cases ev with
        | error e => simp at h
        | ok times =>
          simp only at h
          by_cases hlen : times.length ≠ inputs.length
          · rw [if_pos hlen] at h; simp at h
          · rw [if_neg hlen] at h
            cases hca : checkAfter P
                { s with current_resource_usage :=
                  s.current_resource_usage + ⟨0, times.length, times.sum, 0, 0⟩ }
                .case_eval with
            | error e => rw [hca] at h; simp at h
            | ok u3 =>
              rw [hca] at h
              simp only [Prod.mk.injEq] at h
              obtain ⟨hs, -⟩ := h
              subst hs
              exact ⟨checkBefore_ok_fields hcb, ⟨times, rfl⟩, checkAfter_ok hca, rfl, rfl⟩

lemma public_eval_ok {P : SessionParams} {s : SessionState} {now : Rat}
    {n : Nat} {ev : Except String (List Rat)} {s' : SessionState}
    (h : public_eval P s now n ev = (s', .ok ())) :
    checkFieldsLt s.current_resource_usage P.maximum_resource_usage .public_eval = true ∧
    s'.current_resource_usage = s.current_resource_usage + ⟨0, 0, 0, 1, 0⟩ ∧
    checkFieldsLe s'.current_resource_usage P.maximum_resource_usage .public_eval = true ∧
    s'.last_public_eval_time = now := by
  unfold public_eval at h
  cases hpre : preamble P s now with
  | error e => rw [hpre] at h; simp at h
  | ok u =>
    rw [hpre] at h
    cases hcb : checkBefore P s now .public_eval with
    | error e => rw [hcb] at h; simp at h
    | ok u2 =>
      rw [hcb] at h
      cases ev with
      | error e => simp at h
      | ok times =>
        simp only at h
        by_cases hlen : times.length ≠ n
        · rw [if_pos hlen] at h; simp at h
        · rw [if_neg hlen] at h
          cases hca : checkAfter P
              { s with last_public_eval_time := now, current_resource_usage :=
                s.current_resource_usage + ⟨0, 0, 0, 1, 0⟩ }
              .public_eval with
          | error e => rw [hca] at h; simp at h
          | ok u3 =>
            rw [hca] at h
            simp only [Prod.mk.injEq] at h
            obtain ⟨hs, -⟩ := h
            subst hs
            exact ⟨checkBefore_ok_fields hcb, rfl, checkAfter_ok hca, rfl⟩

lemma private_eval_ok {P : SessionParams} {s : SessionState} {now : Rat}
    {n : Nat} {ev : Except String (List Rat)} {s' : SessionState}
    (h : private_eval P s now n ev = (s', .ok ())) :
    checkFieldsLt s.current_resource_usage P.maximum_resource_usage .private_eval = true ∧
    s'.current_resource_usage = s.current_resource_usage + ⟨0, 0, 0, 0, 1⟩ ∧
    checkFieldsLe s'.current_resource_usage P.maximum_resource_usage .private_eval = true ∧
    s'.last_private_eval_time = now := by
  unfold private_eval at h
  cases hpre : preamble P s now with
  | error e => rw [hpre] at h; simp at h
  | ok u =>
    rw [hpre] at h
    cases hcb : checkBefore P s now .private_eval with
    | error e => rw [hcb] at h; simp at h
    | ok u2 =>
      rw [hcb] at h
      cases ev with
      | error e => simp at h
      | ok times =>
        simp only at h
        by_cases hlen : times.length ≠ n
        · rw [if_pos hlen] at h; simp at h
        · rw [if_neg hlen] at h
          cases hca : checkAfter P
              { s with last_private_eval_time := now, current_resource_usage :=
                s.current_resource_usage + ⟨0, 0, 0, 0, 1⟩ }
              .private_eval with
          | error e => rw [hca] at h; simp at h
          | ok u3 =>
            rw [hca] at h
            simp only [Prod.mk.injEq] at h
            obtain ⟨hs, -⟩ := h
            subst hs
            exact ⟨checkBefore_ok_fields hcb, rfl, checkAfter_ok hca, rfl⟩


lemma case_gen_eval_ok {P : SessionParams} {s : SessionState} {now : Rat}
    {seeds : List Nat} {g : Except String (List String)}
    {ev : Except String (List Rat)} {s' : SessionState}
    (h : case_gen_eval P s now seeds g ev = (s', .ok ())) :
    checkFieldsLt s.current_resource_usage P.maximum_resource_usage .case_gen_eval = true ∧
    (∃ s1 out, case_gen P s now seeds g = (s1, .ok out) ∧
      case_eval P s1 now out ev = (s', .ok ())) ∧
    checkFieldsLe s'.current_resource_usage P.maximum_resource_usage .case_gen_eval = true := by
  unfold case_gen_eval at h
  cases hpre : preamble P s now with
  | error e => rw [hpre] at h; simp at h
  | ok u =>
    rw [hpre] at h
    cases hcb : checkBefore P s now .case_gen_eval with
    | error e => rw [hcb] at h; simp at h
    | ok u2 =>
      rw [hcb] at h
      by_cases hsv : ¬ seedsValid seeds
      · rw [if_pos hsv] at h; simp at h
      · rw [if_neg hsv] at h
        cases hcg : case_gen P s now seeds g with
        | mk s1 r1 =>
          rw [hcg] at h
          cases r1 with
          | error e => simp at h
          | ok out =>
            simp only at h
            cases hce : case_eval P s1 now out ev with
            | mk s2 r2 =>
              rw [hce] at h
              cases r2 with
              | error e => simp at h
              | ok u4 =>
                simp only at h
                cases hca : checkAfter P s2 .case_gen_eval with
                | error e => rw [hca] at h; simp at h
                | ok u5 =>
                  rw [hca] at h
                  simp only [Prod.mk.injEq] at h
                  obtain ⟨hs, -⟩ := h
                  subst hs
                  exact ⟨checkBefore_ok_fields hcb, ⟨s1, out, rfl, hce⟩, checkAfter_ok hca⟩

lemma le_of_checkLe_code_run {c m : ResourceUsage}
    (h : checkFieldsLe c m .code_run = true) :
    c.execution_time_case_eval ≤ m.execution_time_case_eval := by
  simpa [checkFieldsLe] using h

lemma le_of_checkLe_case_gen {c m : ResourceUsage}
    (h : checkFieldsLe c m .case_gen = true) : c.num_case_gen ≤ m.num_case_gen := by
  simpa [checkFieldsLe] using h

lemma le_of_checkLe_case_eval {c m : ResourceUsage}
    (h : checkFieldsLe c m .case_eval = true) :
    c.num_case_eval ≤ m.num_case_eval ∧
    c.execution_time_case_eval ≤ m.execution_time_case_eval := by
  simpa [checkFieldsLe, Bool.and_eq_true] using h

lemma le_of_checkLe_public {c m : ResourceUsage}
    (h : checkFieldsLe c m .public_eval = true) :
    c.num_call_public_eval ≤ m.num_call_public_eval := by
  simpa [checkFieldsLe] using h

lemma le_of_checkLe_private {c m : ResourceUsage}
    (h : checkFieldsLe c m .private_eval = true) :
    c.num_call_private_eval ≤ m.num_call_private_eval := by
  simpa [checkFieldsLe] using h

lemma step_inv {P : SessionParams} {s s' : SessionState}
    (hstep : AcceptedStep P s s')
    (hinv : ruLe s.current_resource_usage P.maximum_resource_usage) :
    ruLe s'.current_resource_usage P.maximum_resource_usage := by
  obtain ⟨now, a, h1, h2⟩ := hstep
  obtain ⟨i1, i2, i3, i4, i5⟩ := hinv
  cases a with
  | codeRun r =>
    have hx : code_run P s now r = (s', .ok ()) := by
      rw [Prod.ext_iff]; exact ⟨h1, h2⟩
    obtain ⟨-, ⟨t, hc⟩, hle⟩ := code_run_ok hx
    have := le_of_checkLe_code_run hle
    rw [hc] at this ⊢
    exact ⟨by simpa using i1, by simpa using i2, this, by simpa using i4, by simpa using i5⟩
  | caseGen seeds g =>
    cases hcg : case_gen P s now seeds g with
    | mk s1 r1 =>
      have h1' : s1 = s' := by
        have := h1
        simp only [applyAction, hcg] at this
        exact this
      cases r1 with
      | error e => exfalso; simp [applyAction, hcg, Except.map] at h2
      | ok out =>
        rw [h1'] at hcg
        obtain ⟨-, hc, hle, -⟩ := case_gen_ok hcg
        have := le_of_checkLe_case_gen hle
        rw [hc] at this ⊢
        exact ⟨this, by simpa using i2, by simpa using i3, by simpa using i4,
          by simpa using i5⟩
  | caseEval inputs ev =>
    have hx : case_eval P s now inputs ev = (s', .ok ()) := by
      rw [Prod.ext_iff]; exact ⟨h1, h2⟩
    obtain ⟨-, ⟨times, hc⟩, hle, -⟩ := case_eval_ok hx
    obtain ⟨le1, le2⟩ := le_of_checkLe_case_eval hle
    rw [hc] at le1 le2 ⊢
    exact ⟨by simpa using i1, le1, le2, by simpa using i4, by simpa using i5⟩
  | caseGenEval seeds g ev =>
    have hx : case_gen_eval P s now seeds g ev = (s', .ok ()) := by
      rw [Prod.ext_iff]; exact ⟨h1, h2⟩
    obtain ⟨-, ⟨s1, out, hcg, hce⟩, -⟩ := case_gen_eval_ok hx
    obtain ⟨-, hc1, hle1, -⟩ := case_gen_ok hcg
    obtain ⟨-, ⟨times, hc2⟩, hle2, -⟩ := case_eval_ok hce
    have g1 := le_of_checkLe_case_gen hle1
    obtain ⟨e1, e2⟩ := le_of_checkLe_case_eval hle2
    rw [hc2, hc1] at e1 e2 ⊢
    rw [hc1] at g1
    exact ⟨by simpa using g1, e1, e2, by simpa using i4, by simpa using i5⟩
  | publicEval n ev =>
    have hx : public_eval P s now n ev = (s', .ok ()) := by
      rw [Prod.ext_iff]; exact ⟨h1, h2⟩
    obtain ⟨-, hc, hle, -⟩ := public_eval_ok hx
    have := le_of_checkLe_public hle
    rw [hc] at this ⊢
    exact ⟨by simpa using i1, by simpa using i2, by simpa using i3, this,
      by simpa using i5⟩
  | privateEval n ev =>
    have hx : private_eval P s now n ev = (s', .ok ()) := by
      rw [Prod.ext_iff]; exact ⟨h1, h2⟩
    obtain ⟨-, hc, hle, -⟩ := private_eval_ok hx
    have := le_of_checkLe_private hle
    rw [hc] at this ⊢
    exact ⟨by simpa using i1, by simpa using i2, by simpa using i3,
      by simpa using i4, this⟩


/-- C1: for every session and every sequence of accepted actions,
`current_resource_usage` stays component-wise less-or-equal to
`maximum_resource_usage`; moreover each accepted action had its guarded
fields strictly below the maxima before it ran and less-or-equal after
its usage increment. -/
theorem session_budget_invariant (P : SessionParams)
    (hmax : 0 ≤ P.maximum_resource_usage.execution_time_case_eval) :
    (∀ s, ReachableState P s → ruLe s.current_resource_usage P.maximum_resource_usage) ∧
    (∀ s now a, (applyAction P s now a).2 = .ok () →
      checkFieldsLt s.current_resource_usage P.maximum_resource_usage a.fn = true ∧
      checkFieldsLe (applyAction P s now a).1.current_resource_usage
        P.maximum_resource_usage a.fn = true) := by
  constructor
  · intro s hreach
    induction hreach with
    | refl => exact ⟨Nat.zero_le _, Nat.zero_le _, hmax, Nat.zero_le _, Nat.zero_le _⟩
    | tail hsteps hstep ih => exact step_inv hstep ih
  · intro s now a hok
    cases a with
    | codeRun r =>
      have hx : code_run P s now r =
          ((applyAction P s now (SAction.codeRun r)).1, .ok ()) := by
        rw [Prod.ext_iff]; exact ⟨rfl, hok⟩
      obtain ⟨hlt, -, hle⟩ := code_run_ok hx
      exact ⟨hlt, hle⟩
    | caseGen seeds g =>
      cases hcg : case_gen P s now seeds g with
      | mk s1 r1 =>
        cases r1 with
        | error e => exfalso; simp [applyAction, hcg, Except.map] at hok
        | ok out =>
          obtain ⟨hlt, -, hle, -⟩ := case_gen_ok hcg
          have hfst : (applyAction P s now (SAction.caseGen seeds g)).1 = s1 := by
            simp [applyAction, hcg]
          rw [SAction.fn, hfst]
          exact ⟨hlt, hle⟩
    | caseEval inputs ev =>
      have hx : case_eval P s now inputs ev =
          ((applyAction P s now (SAction.caseEval inputs ev)).1, .ok ()) := by
        rw [Prod.ext_iff]; exact ⟨rfl, hok⟩
      obtain ⟨hlt, -, hle, -⟩ := case_eval_ok hx
      exact ⟨hlt, hle⟩
    | caseGenEval seeds g ev =>
      have hx : case_gen_eval P s now seeds g ev =
          ((applyAction P s now (SAction.caseGenEval seeds g ev)).1, .ok ()) := by
        rw [Prod.ext_iff]; exact ⟨rfl, hok⟩
      obtain ⟨hlt, -, hle⟩ := case_gen_eval_ok hx
      exact ⟨hlt, hle⟩
    | publicEval n ev =>
      have hx : public_eval P s now n ev =
          ((applyAction P s now (SAction.publicEval n ev)).1, .ok ()) := by
        rw [Prod.ext_iff]; exact ⟨rfl, hok⟩
      obtain ⟨hlt, -, hle, -⟩ := public_eval_ok hx
      exact ⟨hlt, hle⟩
    | privateEval n ev =>
      have hx : private_eval P s now n ev =
          ((applyAction P s now (SAction.privateEval n ev)).1, .ok ()) := by
        rw [Prod.ext_iff]; exact ⟨rfl, hok⟩
      obtain ⟨hlt, -, hle, -⟩ := private_eval_ok hx
      exact ⟨hlt, hle⟩


@[simp] lemma ru_add_mk (a1 a2 a4 a5 b1 b2 b4 b5 : Nat) (a3 b3 : Rat) :
    ((⟨a1, a2, a3, a4, a5⟩ : ResourceUsage) + ⟨b1, b2, b3, b4, b5⟩) =
      ⟨a1 + b1, a2 + b2, a3 + b3, a4 + b4, a5 + b5⟩ := rfl

lemma checkBefore_ok_parts {P : SessionParams} {s : SessionState} {now : Rat}
    {f : AleBenchFunction} (h : checkBefore P s now f = .ok ()) :
    ¬ session_remaining_time P now ≤ 0 ∧
    checkFieldsLt s.current_resource_usage P.maximum_resource_usage f = true := by
  unfold checkBefore at h
  by_cases h1 : session_remaining_time P now ≤ 0
  · rw [if_pos h1] at h; simp at h
  · refine ⟨h1, ?_⟩
    rw [if_neg h1] at h
    by_cases h2 : ¬ checkFieldsLt s.current_resource_usage P.maximum_resource_usage f
    · rw [if_pos h2] at h; simp at h
    · simpa using h2

lemma fieldsLt_gen_of_gen_eval {c m : ResourceUsage}
    (h : checkFieldsLt c m .case_gen_eval = true) :
    checkFieldsLt c m .case_gen = true := by
  simp only [checkFieldsLt, Bool.and_eq_true] at h ⊢
  exact h.1.1

lemma checkBefore_case_gen_of_parts {P : SessionParams} {s : SessionState} {now : Rat}
    (htime : ¬ session_remaining_time P now ≤ 0)
    (hfl : checkFieldsLt s.current_resource_usage P.maximum_resource_usage .case_gen = true) :
    checkBefore P s now .case_gen = .ok () := by
  unfold checkBefore
  rw [if_neg htime, if_neg (by simp [hfl]), if_neg (by simp)]

/-- C2 (amended): when both pre-guards of `case_gen_eval` pass but the
generation of `len(seeds)` cases pushes `num_case_gen` past the
maximum, the call is rejected only by the *post*-check (error `...after
the action.`), and the session state retains the over-maximum usage
increment while the action log is unchanged.  The original claim is
amended because the pre-guard only checks strict inequality of the
current counters and cannot see the size of the pending call, so the
spec's rollback-free scenario is rejected after generation ran, not
before. -/
theorem case_gen_eval_insufficient_budget (P : SessionParams) (s : SessionState)
    (now : Rat) (seeds : List Nat) (gen : List String) (ev : Except String (List Rat))
    (hpre : preamble P s now = .ok ())
    (hcb : checkBefore P s now .case_gen_eval = .ok ())
    (hsv : seedsValid seeds = true)
    (hlen : gen.length = seeds.length) (hpos : 0 < gen.length)
    (hover : P.maximum_resource_usage.num_case_gen <
      s.current_resource_usage.num_case_gen + gen.length) :
    case_gen_eval P s now seeds (.ok gen) ev =
      ({ s with current_resource_usage :=
          s.current_resource_usage + ⟨gen.length, 0, 0, 0, 0⟩ },
       .error "Exceeded the maximum resource usage for the `case_gen` function after the action.") := by
  obtain ⟨htime, hflge⟩ := checkBefore_ok_parts hcb
  have hcbg : checkBefore P s now .case_gen = .ok () :=
    checkBefore_case_gen_of_parts htime (fieldsLt_gen_of_gen_eval hflge)
  have hcg : case_gen P s now seeds (.ok gen) =
      ({ s with current_resource_usage :=
          s.current_resource_usage + ⟨gen.length, 0, 0, 0, 0⟩ },
       .error "Exceeded the maximum resource usage for the `case_gen` function after the action.") := by
    have hble : checkFieldsLe (s.current_resource_usage + ⟨gen.length, 0, 0, 0, 0⟩)
        P.maximum_resource_usage .case_gen = false := by
      simp only [checkFieldsLe, ru_add_gen, decide_eq_false_iff_not]
      omega
    have hca : checkAfter P
        { s with current_resource_usage :=
          s.current_resource_usage + ⟨gen.length, 0, 0, 0, 0⟩ } .case_gen =
        .error "Exceeded the maximum resource usage for the `case_gen` function after the action." := by
      simp [checkAfter, AleBenchFunction.value, hble]
    have h0 : ¬ (gen.length = 0) := by omega
    have h1 : ¬ (gen.length ≠ seeds.length) := by omega
    simp [case_gen, hpre, hcbg, hsv, h0, h1, hca]
  simp [case_gen_eval, hpre, hcb, hsv, hcg]


lemma preamble_error_all {P : SessionParams} {s : SessionState} {now : Rat} {e : String}
    (h : preamble P s now = .error e) :
    ∀ a, applyAction P s now a = (s, .error e) := by
  intro a
  cases a with
  | codeRun r => simp [applyAction, code_run, h]
  | caseGen seeds g => simp [applyAction, case_gen, h, Except.map]
  | caseEval i ev => simp [applyAction, case_eval, h]
  | caseGenEval seeds g ev => simp [applyAction, case_gen_eval, h]
  | publicEval n ev => simp [applyAction, public_eval, h]
  | privateEval n ev => simp [applyAction, private_eval, h]

/-- C8 (amended): under a budget of one private evaluation, once
`num_call_private_eval` reaches 1 every further action is refused with
`The session is finished.`; and a `private_eval` called while session
time remains and the private counter is 0 succeeds, setting the counter
to 1.  The original claim is amended because `private_eval` is *not*
allowed regardless of elapsed session time: once the session duration
has elapsed, its preamble raises the session-finished error like any
other action. -/
theorem private_eval_exactly_once (P : SessionParams) (s : SessionState)
    (hmax1 : P.maximum_resource_usage.num_call_private_eval = 1) :
    (s.current_resource_usage.num_call_private_eval = 1 →
      ∀ now a, applyAction P s now a = (s, .error "The session is finished.")) ∧
    (∀ now n (times : List Rat), ¬ session_remaining_time P now ≤ 0 →
      s.current_resource_usage.num_call_private_eval = 0 →
      times.length = n →
      private_eval P s now n (.ok times) =
        ({ s with
            last_private_eval_time := now,
            current_resource_usage := s.current_resource_usage + ⟨0, 0, 0, 0, 1⟩,
            action_log := s.action_log ++ ["private_eval"] }, .ok ()) ∧
      (s.current_resource_usage + (⟨0, 0, 0, 0, 1⟩ : ResourceUsage)).num_call_private_eval = 1) := by
  constructor
  · intro hused now a
    have hpre : preamble P s now = .error "The session is finished." := by
      unfold preamble checkBefore
      by_cases ht : session_remaining_time P now ≤ 0
      · rw [if_pos ht]
      · rw [if_neg ht]
        have hflt : checkFieldsLt s.current_resource_usage
            P.maximum_resource_usage .private_eval = false := by
          simp [checkFieldsLt, hused, hmax1]
        rw [if_pos (by simp [hflt])]
    exact preamble_error_all hpre a
  · intro now n times ht hz hlen
    have hlt : checkFieldsLt s.current_resource_usage
        P.maximum_resource_usage .private_eval = true := by
      simp [checkFieldsLt, hz, hmax1]
    have hcb : checkBefore P s now .private_eval = .ok () := by
      unfold checkBefore
      rw [if_neg ht, if_neg (by simp [hlt]), if_neg (by simp)]
    have hpre : preamble P s now = .ok () := by unfold preamble; rw [hcb]
    have hble : checkFieldsLe (s.current_resource_usage + ⟨0, 0, 0, 0, 1⟩)
        P.maximum_resource_usage .private_eval = true := by
      simp [checkFieldsLe, hz, hmax1]
    have h1 : ¬ (times.length ≠ n) := by omega
    refine ⟨?_, by simp [hz]⟩
    simp [private_eval, hpre, hcb, h1, checkAfter, hble]


/-- C8 counterexample: at `now = 3600` (the session duration) a first
`private_eval` under the test-suite budget is refused with
`The session is finished.` even though the private-eval budget is still
open, contradicting "regardless of elapsed session time". -/
theorem private_eval_refused_after_session_time :
    private_eval dummyParams initState 3600 3 (.ok [1, 1, 1]) =
      (initState, .error "The session is finished.") ∧
    checkFieldsLt initState.current_resource_usage
      dummyParams.maximum_resource_usage .private_eval = true := by
  constructor
  · norm_num [private_eval, preamble, checkBefore, session_remaining_time,
      initState, dummyParams]
  · decide

lemma public_eval_not_ok_of_checkBefore {P : SessionParams} {x : SessionState}
    {now2 : Rat} {n2 : Nat} {ev2 : Except String (List Rat)}
    (h : ∀ r, checkBefore P x now2 .public_eval ≠ .ok r) :
    (public_eval P x now2 n2 ev2).2 ≠ .ok () := by
  unfold public_eval
  cases hp : preamble P x now2 with
  | error e => simp
  | ok u =>
    cases hc : checkBefore P x now2 .public_eval with
    | error e => simp
    | ok r => exact absurd hc (h r)

/-- C10: `public_eval` stores the submission time before the case
evaluation runs — in every branch after argument validation, including
an evaluation that raises, `last_public_eval_time` is set to `now`; with
`use_same_time_scale` on, `next_public_eval_time` is that time plus the
submission interval, and a second call within the interval is refused;
with it off, `next_public_eval_time` equals `last_public_eval_time`. -/
theorem public_eval_sets_last_time (P : SessionParams) (s : SessionState) (now : Rat)
    (n : Nat) (ev : Except String (List Rat))
    (hpre : preamble P s now = .ok ())
    (hcb : checkBefore P s now .public_eval = .ok ()) :
    (public_eval P s now n ev).1.last_public_eval_time = now ∧
    (∀ e, ev = .error e → public_eval P s now n ev =
      ({ s with last_public_eval_time := now }, .error e)) ∧
    (P.use_same_time_scale = false →
      next_public_eval_time P (public_eval P s now n ev).1 = now) ∧
    (P.use_same_time_scale = true →
      next_public_eval_time P (public_eval P s now n ev).1 = now + P.submission_interval) ∧
    (∀ now2, P.use_same_time_scale = true → now2 < now + P.submission_interval →
      ∀ n2 ev2, (public_eval P (public_eval P s now n ev).1 now2 n2 ev2).2 ≠ .ok ()) := by
  have hlast : (public_eval P s now n ev).1.last_public_eval_time = now := by
    unfold public_eval
    rw [hpre, hcb]
    cases ev with
    | error e => simp
    | ok times =>
      simp only
      by_cases hlen : times.length ≠ n
      · rw [if_pos hlen]
      · rw [if_neg hlen]
        cases hca : checkAfter P
            { s with last_public_eval_time := now, current_resource_usage :=
              s.current_resource_usage + ⟨0, 0, 0, 1, 0⟩ } .public_eval with
        | error e => simp
        | ok u => simp
  refine ⟨hlast, ?_, ?_, ?_, ?_⟩
  · intro e he
    subst he
    unfold public_eval
    rw [hpre, hcb]
  · intro hoff
    simp [next_public_eval_time, hoff, hlast]
  · intro hon
    simp [next_public_eval_time, hon, hlast]
  · intro now2 hon hlt n2 ev2
    apply public_eval_not_ok_of_checkBefore
    intro r
    unfold checkBefore
    by_cases ht : session_remaining_time P now2 ≤ 0
    · rw [if_pos ht]; simp
    · rw [if_neg ht]
      by_cases hfl : ¬ checkFieldsLt (public_eval P s now n ev).1.current_resource_usage
          P.maximum_resource_usage .public_eval
      · rw [if_pos hfl]; simp
      · rw [if_neg hfl]
        rw [if_pos]
        · simp
        · refine ⟨hon, rfl, ?_⟩
          rw [next_public_eval_time, if_pos hon, hlast]
          exact hlt


/-- C10 witness: a failing evaluation at time 10 still records
`last_public_eval_time = 10` and is followed by a refusal at time 20,
inside the 1800-second interval. -/
theorem public_eval_sets_last_time_witness :
    public_eval dummyParams initState 2000 3 (.error "boom") =
      ({ initState with last_public_eval_time := 2000 }, .error "boom") :=
  (public_eval_sets_last_time dummyParams initState 2000 3 (.error "boom")
    (by norm_num [preamble, checkBefore, checkFieldsLt, session_remaining_time,
        next_public_eval_time, initState, dummyParams])
    (by norm_num [checkBefore, checkFieldsLt, session_remaining_time,
        next_public_eval_time, initState, dummyParams])).2.1 "boom" rfl

lemma find_desc_max {l : List (Int × Nat × Nat)} {s : Int} {e : Int × Nat × Nat}
    (hp : l.Pairwise (fun a b => b.1 < a.1))
    (h : l.find? (fun x => decide (x.1 ≤ s)) = some e) :
    e.1 ≤ s ∧ ∀ x ∈ l, x.1 ≤ s → x.1 ≤ e.1 := by
  induction l with
  | nil => simp at h
  | cons a rest ih =>
    rw [List.pairwise_cons] at hp
    by_cases ha : a.1 ≤ s
    · rw [List.find?_cons_of_pos _ (by simpa using ha)] at h
      simp only [Option.some.injEq] at h
      subst h
      refine ⟨ha, ?_⟩
      intro x hx hxs
      rcases List.mem_cons.mp hx with rfl | hx
      · exact le_refl _
      · exact le_of_lt (hp.1 x hx)
    · rw [List.find?_cons_of_neg _ (by simpa using ha)] at h
      obtain ⟨h1, h2⟩ := ih hp.2 h
      refine ⟨h1, ?_⟩
      intro x hx hxs
      rcases List.mem_cons.mp hx with rfl | hx
      · exact absurd hxs ha
      · exact h2 x hx hxs

/-- C9: the rank of an overall score `s` in a standings table is the
`lo` of the first (largest-score) entry with `score ≤ s` in the
descending table, which is the largest such entry; the fractional rank
is `(lo + hi) / 2` on an exact tie and `lo` otherwise; a score above
all entries gives `(1, 1)`; and on the spec's table, score 96 gives
rank 4 with fractional rank 5.5. -/
theorem standings_rank_rule :
    (∀ (tbl : List (Nat × Int)) (s : Int) (e : Int × Nat × Nat),
      (score_rank_list tbl).Pairwise (fun a b => b.1 < a.1) →
      (score_rank_list tbl).find? (fun x => decide (x.1 ≤ s)) = some e →
      get_new_rank_absolute tbl s =
        some (e.2.1, if e.1 = s then ((e.2.1 : Rat) + (e.2.2 : Rat)) / 2 else (e.2.1 : Rat)) ∧
      e.1 ≤ s ∧ ∀ x ∈ score_rank_list tbl, x.1 ≤ s → x.1 ≤ e.1)
    ∧ (∀ (r0 : Nat) (sc0 : Int) (rest : List (Nat × Int)) (s : Int),
      r0 = 1 → sc0 < s →
      get_new_rank_absolute ((r0, sc0) :: rest) s = some (1, 1))
    ∧ get_new_rank_absolute [(1, 100), (2, 98), (4, 96), (8, 94), (16, 0)] 96 =
        some (4, 11/2) := by
  refine ⟨?_, ?_, ?_⟩
  · intro tbl s e hp h
    obtain ⟨h1, h2⟩ := find_desc_max hp h
    refine ⟨?_, h1, h2⟩
    unfold get_new_rank_absolute
    rw [h]
  · intro r0 sc0 rest s hr0 hlt
    subst hr0
    unfold get_new_rank_absolute
    have hhead : score_rank_list ((1, sc0) :: rest) =
        (sc0, 1, match rest with | [] => 1 | (r2, _) :: _ => r2 - 1) :: score_rank_list rest := rfl
    rw [hhead, List.find?_cons_of_pos _ (by simpa using le_of_lt hlt)]
    simp [ne_of_lt hlt]
  · norm_num [get_new_rank_absolute, score_rank_list]

/-- C9 witness: on the spec's table, a score of 97 falls strictly
between entries and gets the `lo` of the 96-entry as both ranks. -/
theorem standings_rank_rule_witness :
    get_new_rank_absolute [(1, 100), (2, 98), (4, 96), (8, 94), (16, 0)] 96 =
      some (4, if (96 : Int) = 96 then ((4 : Rat) + (7 : Rat)) / 2 else (4 : Rat)) :=
  (standings_rank_rule.1 [(1, 100), (2, 98), (4, 96), (8, 94), (16, 0)] 96 (96, 4, 7)
    (by norm_num [score_rank_list]) (by norm_num [score_rank_list])).1


/-- C2 counterexample: with the spec's budget (`num_case_gen = 2`),
`case_gen_eval` with three seeds passes the combined pre-guard (so the
claimed pre-rejection does not happen), and the call ends in the
post-check error with `num_case_gen = 3` retained in the state. -/
theorem case_gen_eval_pre_guard_passes :
    checkBefore specBudgetParams initState 10 .case_gen_eval = .ok () ∧
    case_gen_eval specBudgetParams initState 10 [0, 1, 2] (.ok ["a", "b", "c"]) (.ok []) =
      (⟨⟨3, 0, 0, 0, 0⟩, [], 0, 0⟩,
       .error "Exceeded the maximum resource usage for the `case_gen` function after the action.") ∧
    (⟨⟨3, 0, 0, 0, 0⟩, [], 0, 0⟩ : SessionState) ≠ initState := by
  refine ⟨?_, ?_, ?_⟩
  · norm_num [checkBefore, checkFieldsLt, session_remaining_time,
      next_public_eval_time, initState, specBudgetParams]
  · norm_num [case_gen_eval, case_gen, preamble, checkBefore, checkAfter,
      checkFieldsLt, checkFieldsLe, seedsValid, session_remaining_time,
      next_public_eval_time, initState, specBudgetParams, AleBenchFunction.value]
    decide
  · simp [initState]

/-- C2 witness: the amended behaviour at the spec's budget — guards
pass, generation runs, the post-check rejects, the over-maximum
increment stays, the log is unchanged. -/
theorem case_gen_eval_insufficient_budget_witness :
    case_gen_eval specBudgetParams initState 10 [0, 1, 2] (.ok ["a", "b", "c"]) (.ok []) =
      ({ initState with current_resource_usage :=
          initState.current_resource_usage + ⟨3, 0, 0, 0, 0⟩ },
       .error "Exceeded the maximum resource usage for the `case_gen` function after the action.") :=
  case_gen_eval_insufficient_budget specBudgetParams initState 10 [0, 1, 2]
    ["a", "b", "c"] (.ok [])
    (by norm_num [preamble, checkBefore, checkFieldsLt, session_remaining_time,
        next_public_eval_time, initState, specBudgetParams])
    (by norm_num [checkBefore, checkFieldsLt, session_remaining_time,
        next_public_eval_time, initState, specBudgetParams])
    (by decide) (by norm_num) (by norm_num) (by norm_num [initState, specBudgetParams])

/-- C1 witness: from the fresh session under the test-suite budget, one
accepted `case_gen` action leads to usage `(1,0,0,0,0)`, which is within
the maximum `(5,5,60,3,1)`. -/
theorem session_budget_invariant_witness :
    AcceptedStep dummyParams initState ⟨⟨1, 0, 0, 0, 0⟩, ["case_gen"], 0, 0⟩ ∧
    ruLe (⟨⟨1, 0, 0, 0, 0⟩, ["case_gen"], 0, 0⟩ : SessionState).current_resource_usage
      dummyParams.maximum_resource_usage := by
  have happ : applyAction dummyParams initState 10 (.caseGen [0] (.ok ["a"])) =
      (⟨⟨1, 0, 0, 0, 0⟩, ["case_gen"], 0, 0⟩, .ok ()) := by
    norm_num [applyAction, case_gen, preamble, checkBefore, checkAfter,
      checkFieldsLt, checkFieldsLe, seedsValid, session_remaining_time,
      next_public_eval_time, initState, dummyParams, Except.map]
    simp
  have hstep : AcceptedStep dummyParams initState ⟨⟨1, 0, 0, 0, 0⟩, ["case_gen"], 0, 0⟩ :=
    ⟨10, .caseGen [0] (.ok ["a"]), by rw [happ], by rw [happ]⟩
  exact ⟨hstep, (session_budget_invariant dummyParams (by norm_num [dummyParams])).1 _
    (Relation.ReflTransGen.single hstep)⟩

/-- C3 witness: a concrete two-input, two-worker run returns one result
per input (both runtime errors), and the length equality follows from
the per-run length law. -/
theorem run_cases_parallel_witness :
    run_cases_docker (fun _ => ProfilesDecode.jsonError) .rust (.finished ⟨0, "", 1⟩)
        2 1000000 false true true ["a", "b"]
        (fun _ => ⟨1, 1, "", "", "", 0, "", false, ""⟩) 2 =
      .ok [rejCase none none none .runtimeError "Runtime error." 1 0,
        rejCase none none none .runtimeError "Runtime error." 1 0] ∧
    ([rejCase none none none .runtimeError "Runtime error." 1 0,
      rejCase none none none .runtimeError "Runtime error." 1 0] : List CaseResult).length =
      (["a", "b"] : List String).length := by
  have h3 : pyStrip "" = "" := by decide
  have h5 : pyContains "" "SyntaxError" = false := by decide
  have hrun : run_cases_docker (fun _ => ProfilesDecode.jsonError) .rust (.finished ⟨0, "", 1⟩)
      2 1000000 false true true ["a", "b"]
      (fun _ => ⟨1, 1, "", "", "", 0, "", false, ""⟩) 2 =
      .ok [rejCase none none none .runtimeError "Runtime error." 1 0,
        rejCase none none none .runtimeError "Runtime error." 1 0] := by
    norm_num [run_cases_docker, run_compile_container, compileFinishCheck, case_iter_func,
      run_batch_run_container, h3, h5, List.enum, List.enumFrom]
  exact ⟨hrun, (run_cases_length_and_parallel_isolation (fun _ => ProfilesDecode.jsonError)
    .rust (.finished ⟨0, "", 1⟩) 2 1000000 false true true ["a", "b"]
    (fun _ => ⟨1, 1, "", "", "", 0, "", false, ""⟩) 2).1 _ hrun⟩

/-- C4 witness: the empty-profiles rule at host time 1 within a limit
of 2 yields the runtime-error verdict with the host time. -/
theorem parse_profiles_rules_witness :
    (0 : Rat) ≤ 1 ∧ (1 : Rat) ≤ 2 ∧
    parse_profiles (decodeFixed ⟨0, 1, 0, 0, 16384⟩) 2 1073741824 "" 1 none none none =
      .ok (.inl (rejCase none none none .runtimeError "Runtime error." 1 0)) :=
  ⟨by norm_num, by norm_num,
    (parse_profiles_rules (decodeFixed ⟨0, 1, 0, 0, 16384⟩) 2 1073741824 "" 1 none none none
      (by norm_num)).1 rfl (by norm_num)⟩

/-- C5 witness: a judge exiting 0 with stderr whose last line is
`Score = 12345` produces the extracted score 12345. -/
theorem run_batch_judge_rules_witness :
    pyContains (pyStrip "Score = 12345") "wrong answer: " = false ∧
    run_batch_judge_container 0 "Score = 12345" 1 none none none = .inr 12345 := by
  have h2 : pyContains (pyStrip "Score = 12345") "wrong answer: " = false := by decide
  have h3 : pyStrip (pyStrip "Score = 12345") ≠ "" := by decide
  have h4 : scoreLineMatch ((pySplitLines (pyStrip "Score = 12345")).getLastD "") =
      some 12345 := by decide
  exact ⟨h2,
    (run_batch_judge_rules 0 "Score = 12345" 1 none none none).2.2.2.1 12345 rfl h2 h3 h4⟩

/-- C6 witness: a compile container exiting 1 with stderr `boom` makes a
two-input run return the same compilation-error verdict for both inputs,
with the rejected score. -/
theorem compile_failure_replicates_witness :
    run_cases_docker (fun _ => ProfilesDecode.jsonError) .rust (.finished ⟨1, "boom", 4⟩)
        2 1000 true true true ["a", "b"]
        (fun _ => ⟨0, 0, "", "", "", 0, "", false, ""⟩) 2 =
      .ok (List.replicate (["a", "b"] : List String).length
        (rejCase none none none .compilationError
          "Failed to compile the code.\nStandard error:\nboom" 0 0)) ∧
    (rejCase none none none .compilationError
        "Failed to compile the code.\nStandard error:\nboom" 0 0).judge_result =
      .compilationError ∧
    (rejCase none none none .compilationError
        "Failed to compile the code.\nStandard error:\nboom" 0 0).absolute_score =
      REJECTED_ABSOLUTE_SCORE := by
  obtain ⟨ce, h1, h2, h3⟩ := compile_failure_replicates (fun _ => ProfilesDecode.jsonError)
    .rust (.finished ⟨1, "boom", 4⟩) 2 1000 true true true ["a", "b"]
    (fun _ => ⟨0, 0, "", "", "", 0, "", false, ""⟩) 2
    (Or.inr ⟨⟨1, "boom", 4⟩, Or.inl rfl, Or.inl (by norm_num)⟩)
  have hs : pyStrip "boom" = "boom" := by decide
  have hcc : run_compile_container CodeLanguage.rust (.finished ⟨1, "boom", 4⟩) =
      some (rejCase none none none .compilationError
        "Failed to compile the code.\nStandard error:\nboom" 0 0) := by
    simp [run_compile_container, compileFinishCheck, hs]
  have hrun : run_cases_docker (fun _ => ProfilesDecode.jsonError) .rust
      (.finished ⟨1, "boom", 4⟩) 2 1000 true true true ["a", "b"]
      (fun _ => ⟨0, 0, "", "", "", 0, "", false, ""⟩) 2 =
      .ok (List.replicate (["a", "b"] : List String).length
        (rejCase none none none .compilationError
          "Failed to compile the code.\nStandard error:\nboom" 0 0)) := by
    simp [run_cases_docker, hcc]
  have hA := hrun.symm.trans h1
  simp only [List.length_cons, List.length_nil, List.replicate, Except.ok.injEq,
    List.cons.injEq, and_true] at hA
  rw [← hA.1] at h2 h3
  exact ⟨hrun, h2, h3⟩

/-- C7 witness: a healthy accepted case under time limit 2 has
execution time 1, which is non-negative and within `tl + 0.1`. -/
theorem execution_time_bounds_witness :
    run_cases_docker (decodeFixed ⟨0, 1, 0, 0, 16384⟩) .rust (.finished ⟨0, "", 1⟩)
        2 1073741824 false true true ["x"]
        (fun _ => ⟨0, 1, "", "", "j", 0, "Score = 5", false, ""⟩) 1 =
      .ok [⟨none, none, none, .accepted, "", 5, none, 1, 16777216⟩] ∧
    0 ≤ (⟨none, none, none, .accepted, "", 5, none, 1, 16777216⟩ : CaseResult).execution_time ∧
    ((⟨none, none, none, .accepted, "", 5, none, 1, 16777216⟩ :
          CaseResult).execution_time ≤ 2 + 1/10 ∨
      (⟨none, none, none, .accepted, "", 5, none, 1, 16777216⟩ :
          CaseResult).judge_result = .wrongAnswer) := by
  have h1 : pyStartsWith "j" "Command terminated by signal 9" = false := by decide
  have h2 : pyStartsWith "j" "Command exited with non-zero status" = false := by decide
  have h3 : pyStrip "" = "" := by decide
  have h4 : pyStrip "Score = 5" = "Score = 5" := by decide
  have h5 : pyContains "" "SyntaxError" = false := by decide
  have h6 : pyContains "Score = 5" "wrong answer: " = false := by decide
  have h7 : scoreLineMatch ((pySplitLines "Score = 5").getLast?.getD "") = some 5 := by decide
  have hrun : run_cases_docker (decodeFixed ⟨0, 1, 0, 0, 16384⟩) .rust (.finished ⟨0, "", 1⟩)
      2 1073741824 false true true ["x"]
      (fun _ => ⟨0, 1, "", "", "j", 0, "Score = 5", false, ""⟩) 1 =
      .ok [⟨none, none, none, .accepted, "", 5, none, 1, 16777216⟩] := by
    norm_num [run_cases_docker, run_compile_container, compileFinishCheck, runSeq,
      case_iter_func, run_batch_run_container, parse_profiles, profilesStep,
      run_batch_judge_container, decodeFixed, h1, h2, h3, h4, h5, h6, h7,
      List.enum, List.enumFrom]
    simp [h5, h6, h7, h4]
  have hb := run_cases_execution_time_bounds (decodeFixed ⟨0, 1, 0, 0, 16384⟩) .rust
    (.finished ⟨0, "", 1⟩) 2 1073741824 false true true ["x"]
    (fun _ => ⟨0, 1, "", "", "j", 0, "Score = 5", false, ""⟩) 1
    (by norm_num) (fun _ => by norm_num)
    (fun s p hp => by
      simp only [decodeFixed, ProfilesDecode.ok.injEq] at hp
      subst hp
      norm_num) _ hrun 0 (by norm_num)
  exact ⟨hrun, hb.1, hb.2.2⟩

/-- C8 witness: under the one-private-eval budget, a first private
evaluation at time 10 succeeds and records the usage; a second attempt
on the resulting state is refused with `The session is finished.` and
leaves the state unchanged. -/
theorem private_eval_once_witness :
    private_eval dummyParams initState 10 3 (.ok [1, 1, 1]) =
      ({ initState with
          last_private_eval_time := 10,
          current_resource_usage := initState.current_resource_usage + ⟨0, 0, 0, 0, 1⟩,
          action_log := initState.action_log ++ ["private_eval"] }, .ok ()) ∧
    applyAction dummyParams
        { initState with
            last_private_eval_time := 10,
            current_resource_usage := initState.current_resource_usage + ⟨0, 0, 0, 0, 1⟩,
            action_log := initState.action_log ++ ["private_eval"] } 20
        (.privateEval 3 (.ok [1, 1, 1])) =
      ({ initState with
          last_private_eval_time := 10,
          current_resource_usage := initState.current_resource_usage + ⟨0, 0, 0, 0, 1⟩,
          action_log := initState.action_log ++ ["private_eval"] },
        .error "The session is finished.") := by
  obtain ⟨h1, h2⟩ := (private_eval_exactly_once dummyParams initState
    (by norm_num [dummyParams])).2 10 3 [1, 1, 1]
    (by norm_num [session_remaining_time, dummyParams])
    (by norm_num [initState]) (by norm_num)
  exact ⟨h1, (private_eval_exactly_once dummyParams _ (by norm_num [dummyParams])).1
    (by simp [initState]) 20 (.privateEval 3 (.ok [1, 1, 1]))⟩

end AleBench
